import Mathlib

/-!
# delivery-service: store, cache and coordinator

A shallow embedding of `internal/model/delivery.go`, `internal/repository/postgres.go`,
`internal/repository/redis.go` and `internal/service/delivery_service.go`.

* The PostgreSQL database is a record of three tables, each a list of rows in
  stored order. Every SQL statement of the repository is a function on that record.
* Values handed to the database are read back unchanged.
* The Redis key space is three association lists, one per key family
  (`delivery:<id>`, `tracking:<n>`, `delivery_events:<id>`); the three families never
  share a key because their leading words differ. `json.Marshal` followed by
  `json.Unmarshal` is the identity on the modelled values; entries do not expire.
* Everything the Go code takes from its environment (generated UUIDs, clock
  readings, whether a statement or a cache call fails) is an explicit argument.
-/

namespace DeliveryModel

/-! ## internal/model/delivery.go -/

/-- A `time.Time` instant, in nanoseconds. -/
abbrev Time := Nat

/-- The constant `time.Hour`, in nanoseconds. -/
def hour : Nat := 3600 * 1000000000

/-- The struct `model.Address`. -/
structure Address where
  Street : String
  City : String
  State : String
  Country : String
  ZipCode : String
deriving DecidableEq, Repr

/-- The struct `model.Delivery`; a nil `*time.Time` is `none`. -/
structure Delivery where
  ID : String
  OrderID : String
  ShippingAddress : Address
  CourierID : String
  Status : String
  TrackingNumber : String
  EstimatedDeliveryTime : Time
  ActualDeliveryTime : Option Time
  CreatedAt : Time
  UpdatedAt : Time
deriving DecidableEq, Repr

/-- The struct `model.DeliveryEvent`; also a row of table `delivery_events`. -/
structure DeliveryEvent where
  ID : String
  DeliveryID : String
  Status : String
  Location : String
  Description : String
  Timestamp : Time
deriving DecidableEq, Repr

/-- The struct `model.CreateDeliveryRequest`. -/
structure CreateDeliveryRequest where
  OrderID : String
  ShippingAddress : Address
deriving DecidableEq, Repr

/-- The struct `model.UpdateDeliveryRequest`. -/
structure UpdateDeliveryRequest where
  ID : String
  Status : String
  Location : String
  Description : String
deriving DecidableEq, Repr

/-- The zero value of `model.Address`. -/
def Address.zero : Address := ⟨"", "", "", "", ""⟩

/-- The zero value of `model.Delivery`. -/
def Delivery.zero : Delivery := ⟨"", "", Address.zero, "", "", "", 0, none, 0, 0⟩

/-! ## The database -/

/-- A row of table `deliveries`, with the columns the queries name. -/
structure DeliveryRow where
  id : String
  order_id : String
  status : String
  tracking_number : String
  courier_id : String
  estimated_delivery_time : Time
  actual_delivery_time : Option Time
  created_at : Time
  updated_at : Time
deriving DecidableEq, Repr

/-- A row of table `delivery_addresses`. The columns are scanned through
`sql.NullString`, which reads SQL NULL as the empty string. -/
structure AddressRow where
  delivery_id : String
  street : String
  city : String
  state : String
  country : String
  zip_code : String
deriving DecidableEq, Repr

/-- The database: three tables, rows in stored order. -/
structure DB where
  deliveries : List DeliveryRow
  delivery_addresses : List AddressRow
  delivery_events : List DeliveryEvent
deriving DecidableEq, Repr

/-- The empty database. -/
def DB.empty : DB := ⟨[], [], []⟩

/-- Modelled from the spec: the table declarations (DDL) are not among the source
files. Section 6 of the spec names the constraints: `deliveries` unique on id and
on tracking_number, `delivery_addresses` and `delivery_events` foreign-keyed on
the delivery id. Each flag says whether the database enforces that constraint;
the repository functions take the schema as an argument. -/
structure Schema where
  deliveries_id_unique : Bool
  deliveries_tracking_unique : Bool
  addresses_fk : Bool
  events_fk : Bool
deriving DecidableEq, Repr

/-- Modelled from the spec: the schema in which all constraints of section 6 are
enforced. -/
def Schema.enforced : Schema := ⟨true, true, true, true⟩

/-- Modelled from the spec: a schema that declares no constraint. -/
def Schema.unconstrained : Schema := ⟨false, false, false, false⟩

/-- Errors of the database driver. -/
inductive StoreError where
  | unavailable
  | constraintViolation
  | internal
deriving DecidableEq, Repr

/-- The statement `INSERT INTO deliveries (...) VALUES (...)`. -/
def insertDelivery (sc : Schema) (fault : Bool) (db : DB) (row : DeliveryRow) :
    Except StoreError DB :=
  if fault then .error .unavailable
  else if sc.deliveries_id_unique = true ∧ ∃ d ∈ db.deliveries, d.id = row.id then
    .error .constraintViolation
  else if sc.deliveries_tracking_unique = true ∧
      ∃ d ∈ db.deliveries, d.tracking_number = row.tracking_number then
    .error .constraintViolation
  else .ok { db with deliveries := db.deliveries ++ [row] }

/-- The statement `INSERT INTO delivery_addresses (...) VALUES (...)`. -/
def insertAddress (sc : Schema) (fault : Bool) (db : DB) (row : AddressRow) :
    Except StoreError DB :=
  if fault then .error .unavailable
  else if sc.addresses_fk = true ∧ ¬ ∃ d ∈ db.deliveries, d.id = row.delivery_id then
    .error .constraintViolation
  else .ok { db with delivery_addresses := db.delivery_addresses ++ [row] }

/-- The statement `INSERT INTO delivery_events (...) VALUES (...)`. -/
def insertEvent (sc : Schema) (fault : Bool) (db : DB) (row : DeliveryEvent) :
    Except StoreError DB :=
  if fault then .error .unavailable
  else if sc.events_fk = true ∧ ¬ ∃ d ∈ db.deliveries, d.id = row.DeliveryID then
    .error .constraintViolation
  else .ok { db with delivery_events := db.delivery_events ++ [row] }

/-- The statement `UPDATE deliveries SET status = $2, updated_at = $3 WHERE id = $1`.
A statement that matches no row is not an error. -/
def updateStatus (fault : Bool) (db : DB) (id status : String) (now : Time) :
    Except StoreError DB :=
  if fault then .error .unavailable
  else .ok { db with deliveries := db.deliveries.map fun d =>
    if d.id = id then { d with status := status, updated_at := now } else d }

/-- The statement `UPDATE deliveries SET actual_delivery_time = $2 WHERE id = $1`. -/
def updateActualDeliveryTime (fault : Bool) (db : DB) (id : String) (now : Time) :
    Except StoreError DB :=
  if fault then .error .unavailable
  else .ok { db with deliveries := db.deliveries.map fun d =>
    if d.id = id then { d with actual_delivery_time := some now } else d }

/-- The rows of `deliveries d JOIN delivery_addresses a ON d.id = a.delivery_id`. -/
def joinRows (db : DB) : List (DeliveryRow × AddressRow) :=
  db.deliveries.flatMap fun d =>
    (db.delivery_addresses.filter fun a => d.id = a.delivery_id).map fun a => (d, a)

/-- The `Scan` of one joined row into a `model.Delivery`, with the nullable
`actual_delivery_time` and the address fields set as the three read paths do. -/
def scanDelivery (r : DeliveryRow × AddressRow) : Delivery :=
  { ID := r.1.id
    OrderID := r.1.order_id
    ShippingAddress := ⟨r.2.street, r.2.city, r.2.state, r.2.country, r.2.zip_code⟩
    CourierID := r.1.courier_id
    Status := r.1.status
    TrackingNumber := r.1.tracking_number
    EstimatedDeliveryTime := r.1.estimated_delivery_time
    ActualDeliveryTime := r.1.actual_delivery_time
    CreatedAt := r.1.created_at
    UpdatedAt := r.1.updated_at }

/-- The row written for a `model.Delivery` by the insert of `CreateDelivery`. The
column `actual_delivery_time` is not in the column list and stays NULL. -/
def deliveryRow (d : Delivery) : DeliveryRow :=
  { id := d.ID
    order_id := d.OrderID
    status := d.Status
    tracking_number := d.TrackingNumber
    courier_id := d.CourierID
    estimated_delivery_time := d.EstimatedDeliveryTime
    actual_delivery_time := none
    created_at := d.CreatedAt
    updated_at := d.UpdatedAt }

/-- The address row written by `CreateDelivery`. -/
def addressRow (d : Delivery) : AddressRow :=
  { delivery_id := d.ID
    street := d.ShippingAddress.Street
    city := d.ShippingAddress.City
    state := d.ShippingAddress.State
    country := d.ShippingAddress.Country
    zip_code := d.ShippingAddress.ZipCode }

/-- The clause `ORDER BY d.created_at DESC`. The query names no further sort key,
so the database may return rows with equal `created_at` in any order, and in
another order each time the query runs. `tieKey` is the order the database picks
for one execution: rows with equal timestamps come out by ascending `tieKey`, and
rows equal in both keep their stored order. Every newest-first arrangement of
pairwise different rows is the result for some `tieKey`. -/
def orderByCreatedAtDesc (tieKey : DeliveryRow × AddressRow → Nat)
    (rows : List (DeliveryRow × AddressRow)) : List (DeliveryRow × AddressRow) :=
  rows.insertionSort fun r s =>
    s.1.created_at < r.1.created_at ∨ (s.1.created_at = r.1.created_at ∧ tieKey r ≤ tieKey s)

/-- The clause `ORDER BY timestamp ASC`: a stable sort of the rows in stored order. -/
def orderByTimestampAsc (rows : List DeliveryEvent) : List DeliveryEvent :=
  rows.insertionSort fun e f => e.Timestamp ≤ f.Timestamp

/-- The predicate `($1 = '' OR order_id = $1)`. -/
def orderFilter (orderID : String) (d : DeliveryRow) : Bool :=
  decide (orderID = "" ∨ d.order_id = orderID)

/-- Go `int` arithmetic: the result of an operation, reduced to 64 bits. -/
def wrapInt64 (x : Int) : Int := (x + 2 ^ 63) % 2 ^ 64 - 2 ^ 63

/-! ## internal/repository/postgres.go -/

/-- What `PostgresRepository.CreateDelivery` takes from its environment: three
generated UUIDs, four clock readings, and whether each insert fails in transit. -/
structure CreateEnv where
  idUUID : String
  trackingUUID : String
  eventUUID : String
  nowCreated : Time
  nowUpdated : Time
  nowEstimated : Time
  nowEvent : Time
  failDelivery : Bool
  failAddress : Bool
  failEvent : Bool
deriving DecidableEq, Repr

/-- What `PostgresRepository.UpdateDelivery` takes from its environment. -/
structure UpdateEnv where
  now : Time
  eventUUID : String
  failBegin : Bool
  failUpdate : Bool
  failEvent : Bool
  failCompleted : Bool
  failCommit : Bool
  failGet : Bool
deriving DecidableEq, Repr

/-- The expression `uuid.New().String()[:8]`. -/
def first8 (uuid : String) : String := String.mk (uuid.data.take 8)

/-- The fields `PostgresRepository.CreateDelivery` assigns before its first insert. -/
def stampDelivery (env : CreateEnv) (delivery : Delivery) : Delivery :=
  { delivery with
    ID := env.idUUID
    TrackingNumber := "TRK-" ++ first8 env.trackingUUID
    Status := "PENDING"
    CreatedAt := env.nowCreated
    UpdatedAt := env.nowUpdated
    EstimatedDeliveryTime := env.nowEstimated + 72 * hour }

/-- The creation event inserted by `PostgresRepository.CreateDelivery`. -/
def creationEvent (env : CreateEnv) (delivery : Delivery) : DeliveryEvent :=
  ⟨env.eventUUID, delivery.ID, delivery.Status, "Warehouse",
    "Delivery created and pending processing", env.nowEvent⟩

/-- `PostgresRepository.CreateDelivery`: three statements run on `r.db` one after
the other, each committed on its own; the first error is returned. The second
component is the database after the call. -/
def PostgresRepository.CreateDelivery (sc : Schema) (env : CreateEnv) (db : DB)
    (delivery : Delivery) : Except StoreError Delivery × DB :=
  let delivery := stampDelivery env delivery
  match insertDelivery sc env.failDelivery db (deliveryRow delivery) with
  | .error e => (.error e, db)
  | .ok db1 =>
    match insertAddress sc env.failAddress db1 (addressRow delivery) with
    | .error e => (.error e, db1)
    | .ok db2 =>
      match insertEvent sc env.failEvent db2 (creationEvent env delivery) with
      | .error e => (.error e, db2)
      | .ok db3 => (.ok delivery, db3)

/-- `PostgresRepository.GetDelivery`: the first joined row with the id, or `none`
for `sql.ErrNoRows`. -/
def PostgresRepository.GetDelivery (fault : Bool) (db : DB) (id : String) :
    Except StoreError (Option Delivery) :=
  if fault then .error .unavailable
  else
    match (joinRows db).filter fun r => r.1.id = id with
    | [] => .ok none
    | r :: _ => .ok (some (scanDelivery r))

/-- The event appended by `PostgresRepository.UpdateDelivery`. -/
def updateEvent (env : UpdateEnv) (req : UpdateDeliveryRequest) : DeliveryEvent :=
  ⟨env.eventUUID, req.ID, req.Status, req.Location, req.Description, env.now⟩

/-- `PostgresRepository.UpdateDelivery`: the statements run inside one transaction
(`BeginTx` ... `Commit`, with the deferred `Rollback` restoring `db` on an early
return); after the commit the delivery is read again with `GetDelivery`. -/
def PostgresRepository.UpdateDelivery (sc : Schema) (env : UpdateEnv) (db : DB)
    (req : UpdateDeliveryRequest) : Except StoreError (Option Delivery) × DB :=
  if env.failBegin then (.error .unavailable, db)
  else
    match updateStatus env.failUpdate db req.ID req.Status env.now with
    | .error e => (.error e, db)
    | .ok tx1 =>
      match insertEvent sc env.failEvent tx1 (updateEvent env req) with
      | .error e => (.error e, db)
      | .ok tx2 =>
        match (if req.Status = "DELIVERED" then
            updateActualDeliveryTime env.failCompleted tx2 req.ID env.now
          else .ok tx2) with
        | .error e => (.error e, db)
        | .ok tx3 =>
          if env.failCommit then (.error .unavailable, db)
          else (PostgresRepository.GetDelivery env.failGet tx3 req.ID, tx3)

/-- What `PostgresRepository.ListDeliveries` takes from its environment: whether
each of its two queries fails in transit, and the order the database picks among
rows with equal `created_at` in this execution of the paginated query. -/
structure ListEnv where
  failCount : Bool
  failQuery : Bool
  tieKey : DeliveryRow × AddressRow → Nat

/-- `PostgresRepository.ListDeliveries`: the count query, then the paginated query
`... ORDER BY d.created_at DESC LIMIT pageSize OFFSET (page - 1) * pageSize`.
PostgreSQL rejects a negative LIMIT or OFFSET. -/
def PostgresRepository.ListDeliveries (env : ListEnv) (db : DB) (orderID : String)
    (page pageSize : Int) : Except StoreError (List Delivery × Int) :=
  if env.failCount then .error .unavailable
  else
    let total : Int := ((db.deliveries.filter (orderFilter orderID)).length : Nat)
    if total = 0 then .ok ([], 0)
    else
      let offset := wrapInt64 ((page - 1) * pageSize)
      if env.failQuery then .error .unavailable
      else if pageSize < 0 ∨ offset < 0 then .error .internal
      else
        let rows := orderByCreatedAtDesc env.tieKey
          ((joinRows db).filter fun r => orderFilter orderID r.1)
        .ok (((rows.drop offset.toNat).take pageSize.toNat).map scanDelivery, total)

/-- What `PostgresRepository.TrackDelivery` takes from its environment. -/
structure TrackEnv where
  failQuery : Bool
  failEvents : Bool
deriving DecidableEq, Repr

/-- `PostgresRepository.TrackDelivery`: the first joined row with the tracking
number, then its events by ascending timestamp. `none` is the `nil, nil, nil`
return; an empty event list is the nil slice. -/
def PostgresRepository.TrackDelivery (env : TrackEnv) (db : DB) (trackingNumber : String) :
    Except StoreError (Option (Delivery × List DeliveryEvent)) :=
  if env.failQuery then .error .unavailable
  else
    match (joinRows db).filter fun r => r.1.tracking_number = trackingNumber with
    | [] => .ok none
    | r :: _ =>
      let delivery := scanDelivery r
      if env.failEvents then .error .unavailable
      else
        .ok (some (delivery,
          orderByTimestampAsc (db.delivery_events.filter fun e => e.DeliveryID = delivery.ID)))

/-! ## internal/repository/redis.go -/

/-- The cache: one association list per key family; the first entry of a key is
the current one, so `Set` puts the new entry in front. -/
structure Cache where
  delivery : List (String × Delivery)
  tracking : List (String × Delivery)
  delivery_events : List (String × List DeliveryEvent)
deriving DecidableEq, Repr

/-- The cache with no entry. -/
def Cache.empty : Cache := ⟨[], [], []⟩

/-- An error of the Redis client or of the JSON encoding. -/
inductive CacheError where
  | failed
deriving DecidableEq, Repr

/-- `RedisCache.CacheDelivery`: `Set` under `delivery:<delivery.ID>`. -/
def RedisCache.CacheDelivery (fault : Bool) (c : Cache) (delivery : Delivery) :
    Except CacheError Unit × Cache :=
  if fault then (.error .failed, c)
  else (.ok (), { c with delivery := (delivery.ID, delivery) :: c.delivery })

/-- `RedisCache.GetCachedDelivery`: `none` is the cache miss (`redis.Nil`). -/
def RedisCache.GetCachedDelivery (fault : Bool) (c : Cache) (deliveryID : String) :
    Except CacheError (Option Delivery) :=
  if fault then .error .failed else .ok (c.delivery.lookup deliveryID)

/-- `RedisCache.CacheDeliveryByTracking`: `Set` under `tracking:<delivery.TrackingNumber>`. -/
def RedisCache.CacheDeliveryByTracking (fault : Bool) (c : Cache) (delivery : Delivery) :
    Except CacheError Unit × Cache :=
  if fault then (.error .failed, c)
  else (.ok (), { c with tracking := (delivery.TrackingNumber, delivery) :: c.tracking })

/-- `RedisCache.GetCachedDeliveryByTracking`: `none` is the cache miss. -/
def RedisCache.GetCachedDeliveryByTracking (fault : Bool) (c : Cache) (trackingNumber : String) :
    Except CacheError (Option Delivery) :=
  if fault then .error .failed else .ok (c.tracking.lookup trackingNumber)

/-- `RedisCache.CacheDeliveryEvents`: `Set` under `delivery_events:<deliveryID>`. A
nil slice is stored as JSON `null`. -/
def RedisCache.CacheDeliveryEvents (fault : Bool) (c : Cache) (deliveryID : String)
    (events : List DeliveryEvent) : Except CacheError Unit × Cache :=
  if fault then (.error .failed, c)
  else (.ok (), { c with delivery_events := (deliveryID, events) :: c.delivery_events })

/-- `RedisCache.GetCachedDeliveryEvents`: the nil slice `[]` on a miss, and also for
a stored JSON `null`. -/
def RedisCache.GetCachedDeliveryEvents (fault : Bool) (c : Cache) (deliveryID : String) :
    Except CacheError (List DeliveryEvent) :=
  if fault then .error .failed else .ok ((c.delivery_events.lookup deliveryID).getD [])

/-! ## internal/service/delivery_service.go -/

/-- The state the service works on: `s.repo` and `s.cache`. -/
structure World where
  db : DB
  cache : Cache
deriving DecidableEq, Repr

/-- The errors the service returns: its four `errors.New` values, and a
repository error passed on as it is. -/
inductive ServiceError where
  | orderIDRequired
  | deliveryIDRequired
  | statusRequired
  | deliveryNotFound
  | store (e : StoreError)
deriving DecidableEq, Repr

/-- Whether each of the two cache writes of `CreateDelivery` and of
`UpdateDelivery` fails. -/
structure PutFaults where
  failCacheDelivery : Bool
  failCacheByTracking : Bool
deriving DecidableEq, Repr

/-- The `model.Delivery` literal `DeliveryService.CreateDelivery` builds from the
request; the fields it does not name have their zero value. -/
def newDelivery (req : CreateDeliveryRequest) : Delivery :=
  { Delivery.zero with
    OrderID := req.OrderID
    ShippingAddress := req.ShippingAddress
    Status := "PENDING" }

/-- `DeliveryService.CreateDelivery`. -/
def DeliveryService.CreateDelivery (sc : Schema) (env : CreateEnv) (cf : PutFaults)
    (w : World) (req : CreateDeliveryRequest) : Except ServiceError Delivery × World :=
  if req.OrderID = "" then (.error .orderIDRequired, w)
  else
    let delivery := newDelivery req
    match PostgresRepository.CreateDelivery sc env w.db delivery with
    | (.error e, db) => (.error (.store e), { w with db := db })
    | (.ok savedDelivery, db) =>
      let c1 := (RedisCache.CacheDelivery cf.failCacheDelivery w.cache savedDelivery).2
      let c2 := (RedisCache.CacheDeliveryByTracking cf.failCacheByTracking c1 savedDelivery).2
      (.ok savedDelivery, ⟨db, c2⟩)

/-- What `DeliveryService.GetDelivery` takes from its environment. -/
structure GetEnv where
  failCacheGet : Bool
  failQuery : Bool
  failCachePut : Bool
deriving DecidableEq, Repr

/-- `DeliveryService.GetDelivery`. -/
def DeliveryService.GetDelivery (env : GetEnv) (w : World) (id : String) :
    Except ServiceError (Option Delivery) × World :=
  match RedisCache.GetCachedDelivery env.failCacheGet w.cache id with
  | .ok (some cachedDelivery) => (.ok (some cachedDelivery), w)
  | _ =>
    match PostgresRepository.GetDelivery env.failQuery w.db id with
    | .error e => (.error (.store e), w)
    | .ok none => (.ok none, w)
    | .ok (some delivery) =>
      (.ok (some delivery),
        { w with cache := (RedisCache.CacheDelivery env.failCachePut w.cache delivery).2 })

/-- `DeliveryService.UpdateDelivery`. -/
def DeliveryService.UpdateDelivery (sc : Schema) (env : UpdateEnv) (cf : PutFaults)
    (w : World) (req : UpdateDeliveryRequest) : Except ServiceError Delivery × World :=
  if req.ID = "" then (.error .deliveryIDRequired, w)
  else if req.Status = "" then (.error .statusRequired, w)
  else
    match PostgresRepository.UpdateDelivery sc env w.db req with
    | (.error e, db) => (.error (.store e), { w with db := db })
    | (.ok none, db) => (.error .deliveryNotFound, { w with db := db })
    | (.ok (some updatedDelivery), db) =>
      let c1 := (RedisCache.CacheDelivery cf.failCacheDelivery w.cache updatedDelivery).2
      let c2 := (RedisCache.CacheDeliveryByTracking cf.failCacheByTracking c1 updatedDelivery).2
      (.ok updatedDelivery, ⟨db, c2⟩)

/-- The page `DeliveryService.ListDeliveries` passes on. -/
def clampPage (page : Int) : Int := if page < 1 then 1 else page

/-- The page size `DeliveryService.ListDeliveries` passes on. -/
def clampPageSize (pageSize : Int) : Int := if pageSize < 1 ∨ pageSize > 100 then 10 else pageSize

/-- `DeliveryService.ListDeliveries`, over the repository call `repoList` it
delegates to (`s.repo.ListDeliveries`). -/
def DeliveryService.ListDeliveriesWith {ρ : Type} (repoList : String → Int → Int → ρ)
    (w : World) (orderID : String) (page pageSize : Int) : ρ × World :=
  let page := if page < 1 then 1 else page
  let pageSize := if pageSize < 1 ∨ pageSize > 100 then 10 else pageSize
  (repoList orderID page pageSize, w)

/-- `DeliveryService.ListDeliveries`. -/
def DeliveryService.ListDeliveries (env : ListEnv) (w : World) (orderID : String)
    (page pageSize : Int) : Except StoreError (List Delivery × Int) × World :=
  DeliveryService.ListDeliveriesWith (PostgresRepository.ListDeliveries env w.db) w orderID
    page pageSize

/-- What `DeliveryService.TrackDelivery` takes from its environment. -/
structure TrackSvcEnv where
  failGetByTracking : Bool
  failGetEvents : Bool
  store : TrackEnv
  failCacheDelivery : Bool
  failCacheByTracking : Bool
  failCacheEvents : Bool
deriving DecidableEq, Repr

/-- The store path of `DeliveryService.TrackDelivery`: the repository call and the
three cache writes. -/
def DeliveryService.trackFromStore (env : TrackSvcEnv) (w : World) (trackingNumber : String) :
    Except ServiceError (Option (Delivery × List DeliveryEvent)) × World :=
  match PostgresRepository.TrackDelivery env.store w.db trackingNumber with
  | .error e => (.error (.store e), w)
  | .ok none => (.ok none, w)
  | .ok (some (delivery, events)) =>
    let c1 := (RedisCache.CacheDelivery env.failCacheDelivery w.cache delivery).2
    let c2 := (RedisCache.CacheDeliveryByTracking env.failCacheByTracking c1 delivery).2
    let c3 := (RedisCache.CacheDeliveryEvents env.failCacheEvents c2 delivery.ID events).2
    (.ok (some (delivery, events)), { w with cache := c3 })

/-- `DeliveryService.TrackDelivery`. The test `events != nil` is `events ≠ []`. -/
def DeliveryService.TrackDelivery (env : TrackSvcEnv) (w : World) (trackingNumber : String) :
    Except ServiceError (Option (Delivery × List DeliveryEvent)) × World :=
  match RedisCache.GetCachedDeliveryByTracking env.failGetByTracking w.cache trackingNumber with
  | .ok (some cachedDelivery) =>
    match RedisCache.GetCachedDeliveryEvents env.failGetEvents w.cache cachedDelivery.ID with
    | .ok (e :: es) => (.ok (some (cachedDelivery, e :: es)), w)
    | _ => DeliveryService.trackFromStore env w trackingNumber
  | _ => DeliveryService.trackFromStore env w trackingNumber

/-! ## Auxiliary definitions for the statements -/

/-- The effect of the transaction of `PostgresRepository.UpdateDelivery` on one
row of `deliveries`: both `UPDATE` statements together. -/
def updatedRow (env : UpdateEnv) (req : UpdateDeliveryRequest) (d : DeliveryRow) : DeliveryRow :=
  if d.id = req.ID then
    { d with
      status := req.Status
      updated_at := env.now
      actual_delivery_time :=
        if req.Status = "DELIVERED" then some env.now else d.actual_delivery_time }
  else d

/-- The database a committed `PostgresRepository.UpdateDelivery` leaves. -/
def updatedDB (env : UpdateEnv) (req : UpdateDeliveryRequest) (db : DB) : DB :=
  { deliveries := db.deliveries.map (updatedRow env req)
    delivery_addresses := db.delivery_addresses
    delivery_events := db.delivery_events ++ [updateEvent env req] }

/-- A repository result as the service passes it on (`return nil, err`). -/
def liftStore {α : Type} : Except StoreError α → Except ServiceError α
  | .error e => .error (.store e)
  | .ok a => .ok a

/-- The position of a row in an arrangement of rows, used as a tie key. -/
def positionIn (result : List (DeliveryRow × AddressRow)) (x : DeliveryRow × AddressRow) : Nat :=
  @List.indexOf _ instBEqOfDecidableEq x result

/-- The matching joined rows in the order the paginated query returns them when
the database orders ties by `tieKey`. -/
def orderedRows (tieKey : DeliveryRow × AddressRow → Nat) (db : DB) (orderID : String) :
    List (DeliveryRow × AddressRow) :=
  orderByCreatedAtDesc tieKey ((joinRows db).filter fun r => orderFilter orderID r.1)

/-- The rows of one page of `orderedRows`: `OFFSET (page - 1) * pageSize`,
`LIMIT pageSize`. -/
def orderedPage (tieKey : DeliveryRow × AddressRow → Nat) (db : DB) (orderID : String)
    (page pageSize : Int) : List Delivery :=
  (((orderedRows tieKey db orderID).drop ((page - 1) * pageSize).toNat).take
    pageSize.toNat).map scanDelivery

/-- The identifiers on page 1 followed by those on page 2 of
`PostgresRepository.ListDeliveries`, when both calls succeed; the database orders
ties by `tieKey1` in the first call and by `tieKey2` in the second. -/
def twoPageIDs (db : DB) (orderID : String) (pageSize : Int)
    (tieKey1 tieKey2 : DeliveryRow × AddressRow → Nat) : List String :=
  match PostgresRepository.ListDeliveries ⟨false, false, tieKey1⟩ db orderID 1 pageSize,
    PostgresRepository.ListDeliveries ⟨false, false, tieKey2⟩ db orderID 2 pageSize with
  | .ok (p1, _), .ok (p2, _) => (p1 ++ p2).map fun d => d.ID
  | _, _ => []

/-! ## Concrete inputs -/

/-- An address used in the concrete runs. -/
def sampleAddress : Address := ⟨"1 Main St", "Springfield", "IL", "US", "62701"⟩

/-- The request `Create(order_id = "ORD-1", address)`. -/
def sampleCreateReq : CreateDeliveryRequest := ⟨"ORD-1", sampleAddress⟩

/-- An environment in which every insert of `CreateDelivery` succeeds. -/
def sampleCreateEnv : CreateEnv :=
  ⟨"d-0001", "0a1b2c3d-4e5f", "e-0001", 10, 10, 10, 10, false, false, false⟩

/-- The same environment, except that the address insert fails in transit. -/
def addressFaultEnv : CreateEnv := { sampleCreateEnv with failAddress := true }

/-- The same environment, except that the event insert fails in transit. -/
def eventFaultEnv : CreateEnv := { sampleCreateEnv with failEvent := true }

/-- The delivery `CreateDelivery` returns in `sampleCreateEnv`. -/
def sampleDelivery : Delivery :=
  ⟨"d-0001", "ORD-1", sampleAddress, "", "PENDING", "TRK-0a1b2c3d", 10 + 72 * hour, none, 10, 10⟩

/-- The creation event of `sampleDelivery`. -/
def sampleCreationEvent : DeliveryEvent :=
  ⟨"e-0001", "d-0001", "PENDING", "Warehouse", "Delivery created and pending processing", 10⟩

/-- An update of a delivery id that no row has. -/
def missingUpdateReq : UpdateDeliveryRequest := ⟨"d-404", "IN_TRANSIT", "Hub", "Left the hub"⟩

/-- The update `Update(id, "DELIVERED", "Customer", "Handed to recipient")`. -/
def deliveredReq : UpdateDeliveryRequest :=
  ⟨"d-0001", "DELIVERED", "Customer", "Handed to recipient"⟩

/-- An environment in which every statement of `UpdateDelivery` succeeds. -/
def sampleUpdateEnv : UpdateEnv := ⟨20, "e-0002", false, false, false, false, false, false⟩

/-- The event appended by `deliveredReq` in `sampleUpdateEnv`. -/
def sampleDeliveredEvent : DeliveryEvent :=
  ⟨"e-0002", "d-0001", "DELIVERED", "Customer", "Handed to recipient", 20⟩

/-- The delivery `sampleDelivery` after `deliveredReq`. -/
def sampleDelivered : Delivery :=
  { sampleDelivery with Status := "DELIVERED", ActualDeliveryTime := some 20, UpdatedAt := 20 }

/-- Cache writes that succeed. -/
def putsOK : PutFaults := ⟨false, false⟩

/-- A `TrackDelivery` environment in which every cache and store call succeeds. -/
def trackOK : TrackSvcEnv := ⟨false, false, ⟨false, false⟩, false, false, false⟩

/-- The empty store with the empty cache. -/
def World.empty : World := ⟨DB.empty, Cache.empty⟩

/-- The state after `Create`. -/
def afterCreate : World :=
  (DeliveryService.CreateDelivery Schema.enforced sampleCreateEnv putsOK World.empty
    sampleCreateReq).2

/-- The state after `Create`, `Track`. -/
def afterCreateTrack : World :=
  (DeliveryService.TrackDelivery trackOK afterCreate "TRK-0a1b2c3d").2

/-- The state after `Create`, `Track`, `Update`. -/
def afterCreateTrackUpdate : World :=
  (DeliveryService.UpdateDelivery Schema.enforced sampleUpdateEnv putsOK afterCreateTrack
    deliveredReq).2

/-- The state after `Create`, `Update`, with no `Track` in between. -/
def afterCreateUpdate : World :=
  (DeliveryService.UpdateDelivery Schema.enforced sampleUpdateEnv putsOK afterCreate
    deliveredReq).2

/-- A row of `deliveries` created at instant 50, whatever its id. -/
def tiedRow (id : String) : DeliveryRow :=
  ⟨id, "ORD-1", "PENDING", "TRK-" ++ id, "", 1000, none, 50, 50⟩

/-- The address row of `tiedRow id`. -/
def tiedAddress (id : String) : AddressRow :=
  ⟨id, "1 Main St", "Springfield", "IL", "US", "62701"⟩

/-- Three deliveries with the same creation timestamp, stored in the order
`b`, `a`, `c`. -/
def tiedDB : DB :=
  ⟨[tiedRow "b", tiedRow "a", tiedRow "c"],
    [tiedAddress "b", tiedAddress "a", tiedAddress "c"], []⟩

/-- The database returns tied rows in stored order. -/
def storedTieOrder : DeliveryRow × AddressRow → Nat := fun _ => 0

/-- The database returns the tied row `b` after the other tied rows. -/
def bLastTieOrder : DeliveryRow × AddressRow → Nat := fun r => if r.1.id = "b" then 1 else 0

/-- The store left by the `CreateDelivery` whose address insert failed: one
delivery row, no address row. -/
def afterFailedCreate : DB :=
  (PostgresRepository.CreateDelivery Schema.enforced addressFaultEnv DB.empty
    (newDelivery sampleCreateReq)).2

/-- Two delivery rows that carry the same identifier `a`, with one address row. -/
def sameIdDB : DB :=
  ⟨[tiedRow "a", { tiedRow "a" with order_id := "ORD-2" }], [tiedAddress "a"], []⟩

/-! ## Lemmas about the statements and the read paths -/

/-- A status update that succeeds rewrites exactly the rows with the id. -/
theorem updateStatus_ok {fault : Bool} {db tx : DB} {id status : String} {now : Time}
    (h : updateStatus fault db id status now = .ok tx) :
    tx = { db with deliveries := db.deliveries.map fun d =>
      if d.id = id then { d with status := status, updated_at := now } else d } := by
  unfold updateStatus at h
  split at h
  · simp at h
  · simpa using h.symm

/-- A completion update that succeeds stamps exactly the rows with the id. -/
theorem updateActualDeliveryTime_ok {fault : Bool} {db tx : DB} {id : String} {now : Time}
    (h : updateActualDeliveryTime fault db id now = .ok tx) :
    tx = { db with deliveries := db.deliveries.map fun d =>
      if d.id = id then { d with actual_delivery_time := some now } else d } := by
  unfold updateActualDeliveryTime at h
  split at h
  · simp at h
  · simpa using h.symm

/-- A delivery insert that succeeds appends the row. -/
theorem insertDelivery_ok {sc : Schema} {fault : Bool} {db tx : DB} {row : DeliveryRow}
    (h : insertDelivery sc fault db row = .ok tx) :
    tx = { db with deliveries := db.deliveries ++ [row] } := by
  unfold insertDelivery at h
  split at h
  · simp at h
  · split at h
    · simp at h
    · split at h
      · simp at h
      · simpa using h.symm

/-- An address insert that succeeds appends the row. -/
theorem insertAddress_ok {sc : Schema} {fault : Bool} {db tx : DB} {row : AddressRow}
    (h : insertAddress sc fault db row = .ok tx) :
    tx = { db with delivery_addresses := db.delivery_addresses ++ [row] } := by
  unfold insertAddress at h
  split at h
  · simp at h
  · split at h
    · simp at h
    · simpa using h.symm

/-- An event insert that succeeds appends the row. -/
theorem insertEvent_ok {sc : Schema} {fault : Bool} {db tx : DB} {row : DeliveryEvent}
    (h : insertEvent sc fault db row = .ok tx) :
    tx = { db with delivery_events := db.delivery_events ++ [row] } := by
  unfold insertEvent at h
  split at h
  · simp at h
  · split at h
    · simp at h
    · simpa using h.symm

/-- A `GetDelivery` that returns a result did not fail in transit. -/
theorem getDelivery_ok {fault : Bool} {db : DB} {id : String} {r : Option Delivery}
    (h : PostgresRepository.GetDelivery fault db id = .ok r) :
    PostgresRepository.GetDelivery false db id = .ok r := by
  cases fault
  · exact h
  · simp [PostgresRepository.GetDelivery] at h

/-- `GetDelivery` scans the first joined row with the id. -/
theorem getDelivery_eq_head (db : DB) (id : String) :
    PostgresRepository.GetDelivery false db id
      = .ok ((((joinRows db).filter fun r => r.1.id = id).head?).map scanDelivery) := by
  unfold PostgresRepository.GetDelivery
  simp only [Bool.false_eq_true, if_false]
  split <;> rename_i h <;> simp [h]

/-- The delivery `GetDelivery` returns has the id asked for. -/
theorem getDelivery_some_id {fault : Bool} {db : DB} {id : String} {d : Delivery}
    (h : PostgresRepository.GetDelivery fault db id = .ok (some d)) : d.ID = id := by
  unfold PostgresRepository.GetDelivery at h
  split at h
  · simp at h
  · split at h
    · simp at h
    · rename_i r rs hr
      simp only [Except.ok.injEq, Option.some.injEq] at h
      subst h
      have hm : r ∈ (joinRows db).filter fun r => r.1.id = id := by
        rw [hr]; exact List.mem_cons_self _ _
      simpa [scanDelivery] using (List.mem_filter.mp hm).2

/-- The first element of a filtered list satisfies the filter. -/
theorem mem_filter_head {α : Type} {p : α → Bool} {l : List α} {a : α}
    (h : (l.filter p).head? = some a) : p a = true := by
  have : a ∈ l.filter p := List.mem_of_mem_head? h
  exact (List.mem_filter.mp this).2

/-- Filtering a list none of whose elements match, extended by one match. -/
theorem filter_append_fresh {α : Type} (p : α → Bool) (l : List α) (a : α)
    (hl : ∀ x ∈ l, p x = false) (ha : p a = true) : (l ++ [a]).filter p = [a] := by
  rw [List.filter_append, List.filter_eq_nil_iff.mpr (by simpa using hl)]
  simp [ha]

/-- Rewriting delivery rows without touching their ids rewrites the join row by row. -/
theorem joinRows_map_deliveries (db : DB) (f : DeliveryRow → DeliveryRow)
    (hf : ∀ d, (f d).id = d.id) :
    joinRows { db with deliveries := db.deliveries.map f }
      = (joinRows db).map fun r => (f r.1, r.2) := by
  unfold joinRows
  simp only
  induction db.deliveries with
  | nil => rfl
  | cons d ds ih =>
    simp only [List.map_cons, List.flatMap_cons, List.map_append, ih, List.map_map, hf]
    rfl

/-- A filter on the delivery column of the join is a filter on `deliveries`. -/
theorem joinRows_filter_fst (db : DB) (p : DeliveryRow → Bool) :
    ((joinRows db).filter fun r => p r.1)
      = (db.deliveries.filter p).flatMap fun d =>
          (db.delivery_addresses.filter fun a => d.id = a.delivery_id).map fun a => (d, a) := by
  unfold joinRows
  induction db.deliveries with
  | nil => rfl
  | cons d ds ih =>
    rw [List.flatMap_cons, List.filter_append, ih]
    by_cases hp : p d = true
    · rw [List.filter_cons_of_pos hp, List.flatMap_cons]
      congr 1
      rw [List.filter_eq_self]
      intro r hr
      obtain ⟨a, _, rfl⟩ := List.mem_map.mp hr
      simpa using hp
    · rw [List.filter_cons_of_neg hp]
      have : (List.filter (fun r => p r.1)
          ((db.delivery_addresses.filter fun a => d.id = a.delivery_id).map fun a => (d, a))) = [] := by
        rw [List.filter_eq_nil_iff]
        intro r hr
        obtain ⟨a, _, rfl⟩ := List.mem_map.mp hr
        simpa using hp
      rw [this, List.nil_append]

/-- The transaction of `UpdateDelivery` never changes an id. -/
theorem updatedRow_id (env : UpdateEnv) (req : UpdateDeliveryRequest) (d : DeliveryRow) :
    (updatedRow env req d).id = d.id := by
  unfold updatedRow
  split <;> rfl

/-- A successful `PostgresRepository.UpdateDelivery` commits `updatedDB` and returns its re-read. -/
theorem repo_update_committed (sc : Schema) (env : UpdateEnv) (db db1 : DB)
    (req : UpdateDeliveryRequest) (r : Option Delivery)
    (h : PostgresRepository.UpdateDelivery sc env db req = (.ok r, db1)) :
    db1 = updatedDB env req db ∧
      PostgresRepository.GetDelivery false db1 req.ID = .ok r := by
  unfold PostgresRepository.UpdateDelivery at h
  split at h
  · simp at h
  split at h
  · simp at h
  rename_i tx1 h1
  split at h
  · simp at h
  rename_i tx2 h2
  split at h
  · simp at h
  rename_i tx3 h3
  split at h
  · simp at h
  rename_i hb hc
  simp only [Prod.mk.injEq] at h
  obtain ⟨hr, hdb⟩ := h
  subst hdb
  refine ⟨?_, getDelivery_ok hr⟩
  have e1 := updateStatus_ok h1
  have e2 := insertEvent_ok h2
  subst e1
  subst e2
  by_cases hd : req.Status = "DELIVERED"
  · rw [if_pos hd] at h3
    have e3 := updateActualDeliveryTime_ok h3
    subst e3
    simp only [updatedDB, List.map_map, DB.mk.injEq, and_true, true_and]
    apply List.map_congr_left
    intro d _
    by_cases hid : d.id = req.ID <;> simp [updatedRow, hid, hd]
  · rw [if_neg hd] at h3
    simp only [Except.ok.injEq] at h3
    subst h3
    simp only [updatedDB, DB.mk.injEq, and_true, true_and]
    apply List.map_congr_left
    intro d _
    by_cases hid : d.id = req.ID <;> simp [updatedRow, hid, hd]

/-- The join after a committed update. -/
theorem joinRows_updatedDB (env : UpdateEnv) (req : UpdateDeliveryRequest) (db : DB) :
    joinRows (updatedDB env req db)
      = (joinRows db).map fun r => (updatedRow env req r.1, r.2) :=
  joinRows_map_deliveries db (updatedRow env req) (updatedRow_id env req)

/-- The first joined row of an id after a committed update is the updated first row. -/
theorem head_filter_id_updatedDB (env : UpdateEnv) (req : UpdateDeliveryRequest) (db : DB)
    (id : String) :
    ((joinRows (updatedDB env req db)).filter fun r => r.1.id = id).head?
      = (((joinRows db).filter fun r => r.1.id = id).head?).map
          fun r => (updatedRow env req r.1, r.2) := by
  rw [joinRows_updatedDB]
  induction joinRows db with
  | nil => rfl
  | cons r rs ih =>
    by_cases hr : r.1.id = id
    · simp [List.filter_cons, hr, updatedRow_id]
    · simpa [List.filter_cons, hr, updatedRow_id] using ih

/-- A successful `PostgresRepository.CreateDelivery` returns the stamped delivery and appends its three rows. -/
theorem repo_create_ok {sc : Schema} {env : CreateEnv} {db db1 : DB} {d0 d : Delivery}
    (h : PostgresRepository.CreateDelivery sc env db d0 = (.ok d, db1)) :
    d = stampDelivery env d0 ∧
      db1 = ⟨db.deliveries ++ [deliveryRow d], db.delivery_addresses ++ [addressRow d],
        db.delivery_events ++ [creationEvent env d]⟩ := by
  unfold PostgresRepository.CreateDelivery at h
  simp only at h
  split at h
  · simp at h
  rename_i db1 h1
  split at h
  · simp at h
  rename_i db2 h2
  split at h
  · simp at h
  rename_i db3 h3
  simp only [Prod.mk.injEq, Except.ok.injEq] at h
  obtain ⟨hd, hdb⟩ := h
  subst hd
  subst hdb
  have e1 := insertDelivery_ok h1
  have e2 := insertAddress_ok h2
  have e3 := insertEvent_ok h3
  subst e1; subst e2; subst e3
  exact ⟨rfl, rfl⟩

/-- A successful `DeliveryService.CreateDelivery`: the stamped delivery, its three rows, and the two cache writes. -/
theorem service_create_ok {sc : Schema} {env : CreateEnv} {cf : PutFaults} {w w1 : World}
    {req : CreateDeliveryRequest} {d : Delivery}
    (h : DeliveryService.CreateDelivery sc env cf w req = (.ok d, w1)) :
    d = stampDelivery env (newDelivery req) ∧
      w1.db = ⟨w.db.deliveries ++ [deliveryRow d], w.db.delivery_addresses ++ [addressRow d],
        w.db.delivery_events ++ [creationEvent env d]⟩ ∧
      w1.cache = (RedisCache.CacheDeliveryByTracking cf.failCacheByTracking
        (RedisCache.CacheDelivery cf.failCacheDelivery w.cache d).2 d).2 := by
  unfold DeliveryService.CreateDelivery at h
  split at h
  · simp at h
  simp only at h
  split at h
  · simp at h
  rename_i s db1 hrepo
  simp only [Prod.mk.injEq, Except.ok.injEq] at h
  obtain ⟨hs, hw⟩ := h
  subst hs
  subst hw
  obtain ⟨hd, hdb⟩ := repo_create_ok hrepo
  exact ⟨hd, hdb, rfl⟩

/-- After a creation with a fresh id, the join has exactly one row of that id. -/
theorem created_rows_by_id (db : DB) (d : Delivery) (ev : DeliveryEvent)
    (hd : ∀ x ∈ db.deliveries, x.id ≠ d.ID)
    (ha : ∀ a ∈ db.delivery_addresses, a.delivery_id ≠ d.ID) :
    ((joinRows ⟨db.deliveries ++ [deliveryRow d], db.delivery_addresses ++ [addressRow d],
        db.delivery_events ++ [ev]⟩).filter fun r => r.1.id = d.ID)
      = [(deliveryRow d, addressRow d)] := by
  rw [joinRows_filter_fst _ (fun x => decide (x.id = d.ID))]
  simp only
  rw [filter_append_fresh _ _ _ (by simpa using hd) (by simp [deliveryRow])]
  rw [List.flatMap_singleton,
    filter_append_fresh _ _ _ (by simpa [deliveryRow, eq_comm] using ha)
      (by simp [deliveryRow, addressRow])]
  rfl

/-- After a creation with a fresh tracking number, the join has exactly one row of that number. -/
theorem created_rows_by_tracking (db : DB) (d : Delivery) (ev : DeliveryEvent)
    (ht : ∀ x ∈ db.deliveries, x.tracking_number ≠ d.TrackingNumber)
    (ha : ∀ a ∈ db.delivery_addresses, a.delivery_id ≠ d.ID) :
    ((joinRows ⟨db.deliveries ++ [deliveryRow d], db.delivery_addresses ++ [addressRow d],
        db.delivery_events ++ [ev]⟩).filter fun r => r.1.tracking_number = d.TrackingNumber)
      = [(deliveryRow d, addressRow d)] := by
  rw [joinRows_filter_fst _ (fun x => decide (x.tracking_number = d.TrackingNumber))]
  simp only
  rw [filter_append_fresh _ _ _ (by simpa using ht) (by simp [deliveryRow])]
  rw [List.flatMap_singleton,
    filter_append_fresh _ _ _ (by simpa [deliveryRow, eq_comm] using ha)
      (by simp [deliveryRow, addressRow])]
  rfl

/-- The store path of `TrackDelivery` returns the repository result. -/
theorem trackFromStore_fst (env : TrackSvcEnv) (w : World) (trk : String) :
    (DeliveryService.trackFromStore env w trk).1
      = liftStore (PostgresRepository.TrackDelivery env.store w.db trk) := by
  unfold DeliveryService.trackFromStore liftStore
  split <;> rename_i h <;> simp [h]

/-- With an empty cache `TrackDelivery` takes the store path. -/
theorem track_empty_cache (env : TrackSvcEnv) (db : DB) (trk : String) :
    DeliveryService.TrackDelivery env ⟨db, Cache.empty⟩ trk
      = DeliveryService.trackFromStore env ⟨db, Cache.empty⟩ trk := by
  unfold DeliveryService.TrackDelivery RedisCache.GetCachedDeliveryByTracking
  cases env.failGetByTracking <;> simp [Cache.empty]

/-- The result of `DeliveryService.CreateDelivery` is decided by validation and the repository. -/
theorem create_fst (sc : Schema) (env : CreateEnv) (cf : PutFaults) (w : World)
    (req : CreateDeliveryRequest) :
    (DeliveryService.CreateDelivery sc env cf w req).1
      = if req.OrderID = "" then .error .orderIDRequired
        else liftStore (PostgresRepository.CreateDelivery sc env w.db (newDelivery req)).1 := by
  unfold DeliveryService.CreateDelivery liftStore
  split
  · rfl
  · simp only
    rcases PostgresRepository.CreateDelivery sc env w.db (newDelivery req) with ⟨_ | _, _⟩ <;> rfl

/-- The result of `DeliveryService.UpdateDelivery` is decided by validation and the repository. -/
theorem update_fst (sc : Schema) (env : UpdateEnv) (cf : PutFaults) (w : World)
    (req : UpdateDeliveryRequest) :
    (DeliveryService.UpdateDelivery sc env cf w req).1
      = if req.ID = "" then .error .deliveryIDRequired
        else if req.Status = "" then .error .statusRequired
        else
          match (PostgresRepository.UpdateDelivery sc env w.db req).1 with
          | .error e => .error (.store e)
          | .ok none => .error .deliveryNotFound
          | .ok (some d) => .ok d := by
  unfold DeliveryService.UpdateDelivery
  split
  · rfl
  · split
    · rfl
    · rcases PostgresRepository.UpdateDelivery sc env w.db req with ⟨_ | _ | _, _⟩ <;> rfl

/-- `DeliveryService.GetDelivery` returns a cached delivery or the repository result. -/
theorem get_fst_cases (env : GetEnv) (w : World) (id : String) :
    (∃ d, (DeliveryService.GetDelivery env w id).1 = .ok (some d)) ∨
    (DeliveryService.GetDelivery env w id).1
      = liftStore (PostgresRepository.GetDelivery env.failQuery w.db id) := by
  unfold DeliveryService.GetDelivery liftStore
  split
  · exact Or.inl ⟨_, rfl⟩
  · right
    split <;> rename_i h <;> simp [h]

/-- On a cache miss or a cache failure `GetDelivery` returns the repository result. -/
theorem get_fst_miss (env : GetEnv) (w : World) (id : String)
    (h : env.failCacheGet = true ∨ w.cache.delivery.lookup id = none) :
    (DeliveryService.GetDelivery env w id).1
      = liftStore (PostgresRepository.GetDelivery env.failQuery w.db id) := by
  unfold DeliveryService.GetDelivery liftStore RedisCache.GetCachedDelivery
  rcases h with h | h
  · simp only [h, if_true]
    split <;> rename_i h <;> simp [h]
  · cases env.failCacheGet
    · simp only [h, Bool.false_eq_true, if_false]
      split <;> rename_i h <;> simp [h]
    · simp only [if_true]
      split <;> rename_i h <;> simp [h]

/-- On a cache hit `GetDelivery` returns the cached delivery. -/
theorem get_fst_hit (env : GetEnv) (w : World) (id : String) (c : Delivery)
    (hf : env.failCacheGet = false) (h : w.cache.delivery.lookup id = some c) :
    (DeliveryService.GetDelivery env w id).1 = .ok (some c) := by
  simp [DeliveryService.GetDelivery, RedisCache.GetCachedDelivery, hf, h]

/-- `DeliveryService.TrackDelivery` returns cached values or the repository result. -/
theorem track_fst_cases (env : TrackSvcEnv) (w : World) (trk : String) :
    (∃ r, (DeliveryService.TrackDelivery env w trk).1 = .ok (some r)) ∨
    (DeliveryService.TrackDelivery env w trk).1
      = liftStore (PostgresRepository.TrackDelivery env.store w.db trk) := by
  rw [← trackFromStore_fst]
  unfold DeliveryService.TrackDelivery
  split
  · split
    · exact Or.inl ⟨_, rfl⟩
    · exact Or.inr rfl
  · exact Or.inr rfl

/-- On a cache miss or a cache failure `TrackDelivery` returns the repository result. -/
theorem track_fst_miss (env : TrackSvcEnv) (w : World) (trk : String)
    (h : env.failGetByTracking = true ∨ w.cache.tracking.lookup trk = none) :
    (DeliveryService.TrackDelivery env w trk).1
      = liftStore (PostgresRepository.TrackDelivery env.store w.db trk) := by
  rw [← trackFromStore_fst]
  unfold DeliveryService.TrackDelivery RedisCache.GetCachedDeliveryByTracking
  rcases h with h | h
  · simp [h]
  · cases env.failGetByTracking <;> simp [h]

/-- Without a cached event list `TrackDelivery` returns the repository result. -/
theorem track_fst_no_events (env : TrackSvcEnv) (w : World) (trk : String)
    (h : ∀ c, w.cache.tracking.lookup trk = some c → w.cache.delivery_events.lookup c.ID = none) :
    (DeliveryService.TrackDelivery env w trk).1
      = liftStore (PostgresRepository.TrackDelivery env.store w.db trk) := by
  rw [← trackFromStore_fst]
  unfold DeliveryService.TrackDelivery RedisCache.GetCachedDeliveryByTracking
    RedisCache.GetCachedDeliveryEvents
  cases hl : w.cache.tracking.lookup trk with
  | none => cases env.failGetByTracking <;> simp
  | some c =>
    have := h c hl
    cases env.failGetByTracking <;> cases env.failGetEvents <;> simp [this]

/-- A non-negative value below `2 ^ 63` is not changed by 64-bit arithmetic. -/
theorem wrapInt64_id (x : Int) (h0 : 0 ≤ x) (h1 : x < 2 ^ 63) : wrapInt64 x = x := by
  unfold wrapInt64
  norm_num at h1 ⊢
  omega

/-- The matching joined rows project onto the matching delivery rows when every
delivery row joins exactly one address row. -/
theorem matching_join_fst (db : DB) (orderID : String)
    (hjoin : (joinRows db).map Prod.fst = db.deliveries) :
    ((joinRows db).filter fun r => orderFilter orderID r.1).map Prod.fst
      = db.deliveries.filter (orderFilter orderID) := by
  rw [← hjoin, List.filter_map]; rfl

/-- The ordered rows are a rearrangement of the matching joined rows. -/
theorem orderedRows_perm (k : DeliveryRow × AddressRow → Nat) (db : DB) (orderID : String) :
    (orderedRows k db orderID).Perm ((joinRows db).filter fun r => orderFilter orderID r.1) :=
  List.perm_insertionSort _ _

/-- The order of `ORDER BY d.created_at DESC` with ties by `k` compares any two rows. -/
theorem tieOrder_total (k : DeliveryRow × AddressRow → Nat) :
    IsTotal (DeliveryRow × AddressRow) (fun r s =>
      s.1.created_at < r.1.created_at ∨ (s.1.created_at = r.1.created_at ∧ k r ≤ k s)) :=
  ⟨fun a b => by
    rcases Nat.lt_trichotomy a.1.created_at b.1.created_at with h | h | h
    · exact Or.inr (Or.inl h)
    · rcases Nat.le_total (k a) (k b) with hk | hk
      · exact Or.inl (Or.inr ⟨h.symm, hk⟩)
      · exact Or.inr (Or.inr ⟨h, hk⟩)
    · exact Or.inl (Or.inl h)⟩

/-- The order of `ORDER BY d.created_at DESC` with ties by `k` is transitive. -/
theorem tieOrder_trans (k : DeliveryRow × AddressRow → Nat) :
    IsTrans (DeliveryRow × AddressRow) (fun r s =>
      s.1.created_at < r.1.created_at ∨ (s.1.created_at = r.1.created_at ∧ k r ≤ k s)) :=
  ⟨fun a b c hab hbc => by
    rcases hab with h1 | ⟨h1, h2⟩ <;> rcases hbc with h3 | ⟨h3, h4⟩
    · exact Or.inl (Nat.lt_trans h3 h1)
    · exact Or.inl (h3 ▸ h1)
    · exact Or.inl (h1 ▸ h3)
    · exact Or.inr ⟨h3.trans h1, Nat.le_trans h2 h4⟩⟩

/-- The result of `orderByCreatedAtDesc` is sorted by creation timestamp, newest
first, and by the tie key among equal timestamps. -/
theorem orderByCreatedAtDesc_sorted (k : DeliveryRow × AddressRow → Nat)
    (rows : List (DeliveryRow × AddressRow)) :
    (orderByCreatedAtDesc k rows).Pairwise fun r s =>
      s.1.created_at < r.1.created_at ∨ (s.1.created_at = r.1.created_at ∧ k r ≤ k s) := by
  have htotal := tieOrder_total k
  have htrans := tieOrder_trans k
  exact List.sorted_insertionSort (fun r s : DeliveryRow × AddressRow =>
      s.1.created_at < r.1.created_at ∨ (s.1.created_at = r.1.created_at ∧ k r ≤ k s)) rows

/-- Every arrangement of pairwise different rows that has the newest first is what
`orderByCreatedAtDesc` returns for some tie key: the position in that
arrangement. -/
theorem orderByCreatedAtDesc_complete (rows result : List (DeliveryRow × AddressRow))
    (hperm : result.Perm rows) (hnd : result.Nodup)
    (hsorted : result.Pairwise fun r s => s.1.created_at ≤ r.1.created_at) :
    orderByCreatedAtDesc (positionIn result) rows = result := by
  have hs := orderByCreatedAtDesc_sorted (positionIn result) rows
  have hr : result.Pairwise fun r s =>
      s.1.created_at < r.1.created_at ∨
        (s.1.created_at = r.1.created_at ∧ positionIn result r ≤ positionIn result s) := by
    rw [List.pairwise_iff_getElem] at hsorted ⊢
    intro i j hi hj hij
    have hle := hsorted i j hi hj hij
    have ei : positionIn result result[i] = i := List.indexOf_getElem hnd i hi
    have ej : positionIn result result[j] = j := List.indexOf_getElem hnd j hj
    rw [ei, ej]
    rcases Nat.lt_or_ge (result[j]).1.created_at (result[i]).1.created_at with h | h
    · exact Or.inl h
    · exact Or.inr ⟨Nat.le_antisymm hle h, Nat.le_of_lt hij⟩
  have hp : (orderByCreatedAtDesc (positionIn result) rows).Perm result :=
    (List.perm_insertionSort _ _).trans hperm.symm
  refine List.Perm.eq_of_sorted ?_ hs hr hp
  intro a b ha hb hab hba
  have ha2 : a ∈ result := hp.mem_iff.mp ha
  have hidx : positionIn result a = positionIn result b := by
    rcases hab with h1 | ⟨h1, h2⟩ <;> rcases hba with h3 | ⟨h3, h4⟩
    · exact absurd h1 (Nat.lt_asymm h3)
    · rw [h3] at h1; exact absurd h1 (Nat.lt_irrefl _)
    · rw [h1] at h3; exact absurd h3 (Nat.lt_irrefl _)
    · exact Nat.le_antisymm h2 h4
  exact (List.indexOf_inj ha2 hb).mp hidx

/-- Rows with one creation timestamp come out by ascending tie key. -/
theorem orderedRows_sorted (k : DeliveryRow × AddressRow → Nat) (db : DB) (orderID : String)
    (t : Time)
    (hsame : ∀ r ∈ (joinRows db).filter (fun r => orderFilter orderID r.1),
      r.1.created_at = t) :
    (orderedRows k db orderID).Sorted fun r s => k r ≤ k s := by
  have hs := orderByCreatedAtDesc_sorted k
    ((joinRows db).filter fun r => orderFilter orderID r.1)
  have hmem : ∀ r ∈ orderedRows k db orderID, r.1.created_at = t := fun r hr =>
    hsame r ((orderedRows_perm k db orderID).mem_iff.mp hr)
  refine List.Pairwise.imp_of_mem ?_ hs
  intro a b ha hb hab
  have ea := hmem a ha
  have eb := hmem b hb
  rcases hab with h | ⟨_, h⟩
  · rw [ea, eb] at h
    exact absurd h (Nat.lt_irrefl t)
  · exact h

/-- One page of `ListDeliveries` when every delivery row joins exactly one address
row: the page of the ordered rows, and the number of matching deliveries. -/
theorem list_page (k : DeliveryRow × AddressRow → Nat) (db : DB) (orderID : String)
    (page pageSize : Int)
    (hp : 1 ≤ page) (hs : 0 ≤ pageSize) (hw : (page - 1) * pageSize < 2 ^ 63)
    (hjoin : (joinRows db).map Prod.fst = db.deliveries) :
    PostgresRepository.ListDeliveries ⟨false, false, k⟩ db orderID page pageSize
      = .ok (orderedPage k db orderID page pageSize,
          ((db.deliveries.filter (orderFilter orderID)).length : Nat)) := by
  have hJ := matching_join_fst db orderID hjoin
  have hoff : 0 ≤ (page - 1) * pageSize := Int.mul_nonneg (by omega) hs
  unfold PostgresRepository.ListDeliveries orderedPage orderedRows
  simp only [Bool.false_eq_true, if_false]
  split
  · rename_i h0
    have hlen : (db.deliveries.filter (orderFilter orderID)).length = 0 := by exact_mod_cast h0
    have hM : db.deliveries.filter (orderFilter orderID) = [] := List.length_eq_zero.mp hlen
    rw [hM] at hJ
    have hJ0 : ((joinRows db).filter fun r => orderFilter orderID r.1) = [] := by
      simpa using hJ
    rw [hJ0, hM]
    simp [orderByCreatedAtDesc]
  · rw [wrapInt64_id _ hoff hw]
    rw [if_neg (by omega)]

/-- Page 1 followed by page 2 of the ordered rows is their first `2 * N` rows. -/
theorem orderedPage_two (k : DeliveryRow × AddressRow → Nat) (db : DB) (orderID : String)
    (N : Nat) :
    orderedPage k db orderID 1 N ++ orderedPage k db orderID 2 N
      = ((orderedRows k db orderID).take (2 * N)).map scanDelivery := by
  have e1 : (((1 : Int) - 1) * N).toNat = 0 := by simp
  have e2 : (((2 : Int) - 1) * N).toNat = N := by simp
  unfold orderedPage
  rw [e1, e2, Int.toNat_ofNat, List.drop_zero, ← List.map_append, ← List.take_add, two_mul]

/-- The identifiers of the ordered rows are a rearrangement of the identifiers of
the matching deliveries. -/
theorem orderedRows_ids_perm (k : DeliveryRow × AddressRow → Nat) (db : DB) (orderID : String)
    (hjoin : (joinRows db).map Prod.fst = db.deliveries) :
    ((orderedRows k db orderID).map fun r => r.1.id).Perm
      ((db.deliveries.filter (orderFilter orderID)).map fun d => d.id) := by
  have h := ((orderedRows_perm k db orderID).map Prod.fst).map fun d : DeliveryRow => d.id
  rw [matching_join_fst db orderID hjoin, List.map_map] at h
  exact h

/-- With no statement failing and a delivery row of the id present, the
transaction of `UpdateDelivery` commits and the delivery is read again. -/
theorem repo_update_runs (sc : Schema) (now : Time) (uuid : String) (db : DB)
    (req : UpdateDeliveryRequest) (hrow : ∃ d ∈ db.deliveries, d.id = req.ID) :
    PostgresRepository.UpdateDelivery sc ⟨now, uuid, false, false, false, false, false, false⟩ db req
      = (PostgresRepository.GetDelivery false
            (updatedDB ⟨now, uuid, false, false, false, false, false, false⟩ req db) req.ID,
          updatedDB ⟨now, uuid, false, false, false, false, false, false⟩ req db) := by
  obtain ⟨d0, hd0, hid0⟩ := hrow
  have hfk : ∃ d ∈ db.deliveries.map (fun d : DeliveryRow =>
      if d.id = req.ID then { d with status := req.Status, updated_at := now } else d),
      d.id = req.ID := by
    refine ⟨_, List.mem_map_of_mem _ hd0, ?_⟩
    simp [hid0]
  have hdb : ∀ (tx3 : DB), tx3 = updatedDB ⟨now, uuid, false, false, false, false, false, false⟩ req db →
      (PostgresRepository.GetDelivery false tx3 req.ID, tx3)
        = (PostgresRepository.GetDelivery false
            (updatedDB ⟨now, uuid, false, false, false, false, false, false⟩ req db) req.ID,
          updatedDB ⟨now, uuid, false, false, false, false, false, false⟩ req db) := by
    intro tx3 h; rw [h]
  unfold PostgresRepository.UpdateDelivery updateStatus insertEvent
  simp only [Bool.false_eq_true, if_false, updateEvent, hfk, not_true_eq_false, and_false]
  by_cases hd : req.Status = "DELIVERED"
  · simp only [hd, if_true, updateActualDeliveryTime, Bool.false_eq_true, if_false]
    apply hdb
    simp only [updatedDB, List.map_map, DB.mk.injEq, and_true, true_and, updateEvent, hd]
    apply List.map_congr_left
    intro d _
    by_cases hid : d.id = req.ID <;> simp [updatedRow, hid, hd]
  · simp only [hd, if_false]
    apply hdb
    simp only [updatedDB, DB.mk.injEq, and_true, true_and, updateEvent]
    apply List.map_congr_left
    intro d _
    by_cases hid : d.id = req.ID <;> simp [updatedRow, hid, hd]

/-- With no statement failing, `UpdateDelivery` on a delivery that `GetDelivery`
finds returns that delivery with the requested status. -/
theorem repo_update_existing (sc : Schema) (now : Time) (uuid : String) (db : DB)
    (req : UpdateDeliveryRequest) (before : Delivery)
    (hbefore : PostgresRepository.GetDelivery false db req.ID = .ok (some before)) :
    ∃ updated,
      PostgresRepository.UpdateDelivery sc ⟨now, uuid, false, false, false, false, false, false⟩
          db req
        = (.ok (some updated),
            updatedDB ⟨now, uuid, false, false, false, false, false, false⟩ req db) ∧
      updated.Status = req.Status ∧ updated.ID = req.ID := by
  rw [getDelivery_eq_head] at hbefore
  simp only [Except.ok.injEq] at hbefore
  cases hh : ((joinRows db).filter fun r => r.1.id = req.ID).head? with
  | none => simp [hh] at hbefore
  | some r =>
    have hid : r.1.id = req.ID := by simpa using mem_filter_head hh
    have hmem : r ∈ joinRows db :=
      (List.mem_filter.mp (List.mem_of_mem_head? hh)).1
    have hrow : ∃ d ∈ db.deliveries, d.id = req.ID := by
      unfold joinRows at hmem
      obtain ⟨d, hd, hr⟩ := List.mem_flatMap.mp hmem
      obtain ⟨a, _, rfl⟩ := List.mem_map.mp hr
      exact ⟨d, hd, hid⟩
    refine ⟨scanDelivery
      (updatedRow ⟨now, uuid, false, false, false, false, false, false⟩ req r.1, r.2), ?_, ?_, ?_⟩
    · rw [repo_update_runs sc now uuid db req hrow, getDelivery_eq_head,
        head_filter_id_updatedDB, hh]
      rfl
    · simp [scanDelivery, updatedRow, hid]
    · simp [scanDelivery, updatedRow, hid]

/-! ## Update of a delivery id that does not exist -/

/-- C1 (the code at the failing input): `Update` of the id `d-404` on the empty
store. With no foreign key on `delivery_events` the call returns "delivery not
found" and leaves an event row for `d-404` in the store; with the foreign key
enforced the event insert is rejected, the transaction is rolled back, and the call
returns the constraint violation instead of "delivery not found". -/
theorem update_missing_id_runs_event_insert :
    DeliveryService.UpdateDelivery Schema.unconstrained sampleUpdateEnv putsOK World.empty
        missingUpdateReq
      = (.error .deliveryNotFound,
          ⟨⟨[], [], [⟨"e-0002", "d-404", "IN_TRANSIT", "Hub", "Left the hub", 20⟩]⟩,
            Cache.empty⟩) ∧
    DeliveryService.UpdateDelivery Schema.enforced sampleUpdateEnv putsOK World.empty
        missingUpdateReq
      = (.error (.store .constraintViolation), World.empty) := by
  constructor <;> rfl

/-! ## Creation is three separate statements -/

/-- C2 (the code at the failing input): `CreateDelivery` on the empty store. When
the address insert fails the call returns the error and the delivery row stays in
the store with no address row and no event; when the event insert fails the
delivery row and its address row stay with no creation event. -/
theorem create_keeps_rows_of_failed_call :
    PostgresRepository.CreateDelivery Schema.enforced addressFaultEnv DB.empty
        (newDelivery sampleCreateReq)
      = (.error .unavailable, ⟨[deliveryRow sampleDelivery], [], []⟩) ∧
    PostgresRepository.CreateDelivery Schema.enforced eventFaultEnv DB.empty
        (newDelivery sampleCreateReq)
      = (.error .unavailable,
          ⟨[deliveryRow sampleDelivery], [addressRow sampleDelivery], []⟩) := by
  constructor <;> rfl

/-! ## The terminal timestamp -/

/-- C3: when `Update` succeeds on a delivery that `GetDelivery` found before the
call, the returned delivery has the new status and `UpdatedAt` equal to the
transaction timestamp `env.now`, the store has gained exactly one event carrying
that timestamp, and `ActualDeliveryTime` is `some env.now` if the status is
"DELIVERED" and is what it was before the call for every other status. -/
theorem update_stamps_actual_delivery_time (sc : Schema) (env : UpdateEnv) (cf : PutFaults)
    (w w1 : World) (req : UpdateDeliveryRequest) (before updated : Delivery)
    (hbefore : PostgresRepository.GetDelivery false w.db req.ID = .ok (some before))
    (hupdate : DeliveryService.UpdateDelivery sc env cf w req = (.ok updated, w1)) :
    (req.Status = "DELIVERED" → updated.ActualDeliveryTime = some env.now) ∧
    (req.Status ≠ "DELIVERED" → updated.ActualDeliveryTime = before.ActualDeliveryTime) ∧
    updated.Status = req.Status ∧
    updated.UpdatedAt = env.now ∧
    w1.db.delivery_events = w.db.delivery_events ++
      [⟨env.eventUUID, req.ID, req.Status, req.Location, req.Description, env.now⟩] := by
  unfold DeliveryService.UpdateDelivery at hupdate
  split at hupdate
  · simp at hupdate
  split at hupdate
  · simp at hupdate
  split at hupdate
  · simp at hupdate
  · simp at hupdate
  rename_i u db1 hrepo
  simp only [Prod.mk.injEq, Except.ok.injEq] at hupdate
  obtain ⟨hu, hw⟩ := hupdate
  subst hu
  subst hw
  obtain ⟨hdb, hget⟩ := repo_update_committed sc env w.db db1 req _ hrepo
  subst hdb
  rw [getDelivery_eq_head, head_filter_id_updatedDB] at hget
  rw [getDelivery_eq_head] at hbefore
  simp only [Except.ok.injEq, Option.map_map] at hget hbefore
  cases hh : ((joinRows w.db).filter fun r => r.1.id = req.ID).head? with
  | none => simp [hh] at hbefore
  | some r =>
    have hid : r.1.id = req.ID := by simpa using mem_filter_head hh
    simp only [hh, Option.map, Option.some.injEq, Function.comp] at hget hbefore
    subst hget
    subst hbefore
    refine ⟨?_, ?_, ?_, ?_, ?_⟩
    · intro hd; simp [scanDelivery, updatedRow, hid, hd]
    · intro hd; simp [scanDelivery, updatedRow, hid, hd]
    · simp [scanDelivery, updatedRow, hid]
    · simp [scanDelivery, updatedRow, hid]
    · simp [updatedDB, updateEvent]

/-- C3 at a concrete input: the delivery created in `afterCreate`, updated to
"DELIVERED" at instant 20. -/
theorem update_stamps_actual_delivery_time_witness :
    PostgresRepository.GetDelivery false afterCreate.db deliveredReq.ID
        = .ok (some sampleDelivery) ∧
      DeliveryService.UpdateDelivery Schema.enforced sampleUpdateEnv putsOK afterCreate
          deliveredReq
        = (.ok sampleDelivered, afterCreateUpdate) ∧
      sampleDelivered.ActualDeliveryTime = some 20 :=
  ⟨rfl, rfl,
    (update_stamps_actual_delivery_time Schema.enforced sampleUpdateEnv putsOK afterCreate
      afterCreateUpdate deliveredReq sampleDelivery sampleDelivered rfl rfl).1 rfl⟩

/-! ## Track after an update -/

/-- C4 (the code at the failing input): `Create`, `Track`, `Update` to
"DELIVERED", every cache and store call succeeding. Both `Create` and `Update`
succeed; the `Track` that follows returns the delivered delivery with the creation
event only, while the store holds the creation event and the delivered event for
it. Without the `Track` between `Create` and `Update` the same call returns both
events. -/
theorem track_after_update_returns_cached_events :
    (DeliveryService.CreateDelivery Schema.enforced sampleCreateEnv putsOK World.empty
        sampleCreateReq).1 = .ok sampleDelivery ∧
    (DeliveryService.UpdateDelivery Schema.enforced sampleUpdateEnv putsOK afterCreateTrack
        deliveredReq).1 = .ok sampleDelivered ∧
    (DeliveryService.TrackDelivery trackOK afterCreateTrackUpdate "TRK-0a1b2c3d").1
      = .ok (some (sampleDelivered, [sampleCreationEvent])) ∧
    PostgresRepository.TrackDelivery ⟨false, false⟩ afterCreateTrackUpdate.db "TRK-0a1b2c3d"
      = .ok (some (sampleDelivered, [sampleCreationEvent, sampleDeliveredEvent])) ∧
    (DeliveryService.TrackDelivery trackOK afterCreateUpdate "TRK-0a1b2c3d").1
      = .ok (some (sampleDelivered, [sampleCreationEvent, sampleDeliveredEvent])) := by
  refine ⟨?_, ?_, ?_, ?_, ?_⟩ <;> rfl

/-! ## Track with only the tracking entry cached -/

/-- C5: when the cache holds a delivery under the tracking number and no event
list under that delivery's id, `Track` returns what `Track` returns from the same
store with an empty cache, and that is the repository's result: the cached
delivery is not used. The cache calls of the two runs may fail independently; the
store calls behave alike. -/
theorem track_tracking_entry_only (env cold : TrackSvcEnv) (w : World) (trackingNumber : String)
    (cached : Delivery) (hstore : cold.store = env.store)
    (hcached : w.cache.tracking.lookup trackingNumber = some cached)
    (hevents : w.cache.delivery_events.lookup cached.ID = none) :
    (DeliveryService.TrackDelivery env w trackingNumber).1
        = (DeliveryService.TrackDelivery cold ⟨w.db, Cache.empty⟩ trackingNumber).1 ∧
      (DeliveryService.TrackDelivery env w trackingNumber).1
        = liftStore (PostgresRepository.TrackDelivery env.store w.db trackingNumber) := by
  have key : (DeliveryService.TrackDelivery env w trackingNumber).1
      = liftStore (PostgresRepository.TrackDelivery env.store w.db trackingNumber) := by
    rw [← trackFromStore_fst]
    unfold DeliveryService.TrackDelivery RedisCache.GetCachedDeliveryByTracking
      RedisCache.GetCachedDeliveryEvents
    cases env.failGetByTracking <;> cases env.failGetEvents <;> simp [hcached, hevents]
  refine ⟨?_, key⟩
  rw [key, track_empty_cache, trackFromStore_fst, hstore]

/-- C5 at a concrete input: right after `Create` the cache holds the delivery under
its tracking number and no event list; `Track` returns the store's delivery and
its one event. -/
theorem track_tracking_entry_only_witness :
    afterCreate.cache.tracking.lookup "TRK-0a1b2c3d" = some sampleDelivery ∧
      afterCreate.cache.delivery_events.lookup sampleDelivery.ID = none ∧
      (DeliveryService.TrackDelivery trackOK afterCreate "TRK-0a1b2c3d").1
        = (DeliveryService.TrackDelivery trackOK ⟨afterCreate.db, Cache.empty⟩
            "TRK-0a1b2c3d").1 :=
  ⟨rfl, rfl,
    (track_tracking_entry_only trackOK trackOK afterCreate "TRK-0a1b2c3d" sampleDelivery rfl
      rfl rfl).1⟩

/-! ## Reads after a creation -/

/-- C6: when `Create` succeeds with freshly generated identifiers (no row of the
store and no cache entry carries the new id or the new tracking number), it returns
a delivery with status "PENDING"; afterwards `Get` of its id returns a delivery
with that id whose shipping address is the requested address, and `Track` of its
tracking number returns that delivery with exactly one event, the creation event
("PENDING", "Warehouse", "Delivery created and pending processing"). The cache
calls of `Create`, `Get` and `Track` may each fail; the store reads succeed. -/
theorem create_then_get_and_track (sc : Schema) (env : CreateEnv) (cf : PutFaults)
    (w w1 : World) (req : CreateDeliveryRequest) (d : Delivery)
    (failCacheGet failCachePut : Bool) (tenv : TrackSvcEnv)
    (hstore : tenv.store = ⟨false, false⟩)
    (hid : ∀ x ∈ w.db.deliveries, x.id ≠ env.idUUID)
    (haddr : ∀ a ∈ w.db.delivery_addresses, a.delivery_id ≠ env.idUUID)
    (hev : ∀ e ∈ w.db.delivery_events, e.DeliveryID ≠ env.idUUID)
    (htrk : ∀ x ∈ w.db.deliveries, x.tracking_number ≠ "TRK-" ++ first8 env.trackingUUID)
    (hcid : w.cache.delivery.lookup env.idUUID = none)
    (hcev : w.cache.delivery_events.lookup env.idUUID = none)
    (hctrk : w.cache.tracking.lookup ("TRK-" ++ first8 env.trackingUUID) = none)
    (hcreate : DeliveryService.CreateDelivery sc env cf w req = (.ok d, w1)) :
    d.Status = "PENDING" ∧
    (∃ g, (DeliveryService.GetDelivery ⟨failCacheGet, false, failCachePut⟩ w1 d.ID).1
        = .ok (some g) ∧
      g.ID = d.ID ∧ g.ShippingAddress = req.ShippingAddress) ∧
    (∃ t ev, (DeliveryService.TrackDelivery tenv w1 d.TrackingNumber).1 = .ok (some (t, [ev])) ∧
      t.ID = d.ID ∧ t.TrackingNumber = d.TrackingNumber ∧ ev.DeliveryID = d.ID ∧
      ev.Status = "PENDING" ∧ ev.Location = "Warehouse" ∧
      ev.Description = "Delivery created and pending processing") := by
  obtain ⟨hd, hdb, hc⟩ := service_create_ok hcreate
  have hID : d.ID = env.idUUID := by rw [hd]; rfl
  have hTRK : d.TrackingNumber = "TRK-" ++ first8 env.trackingUUID := by rw [hd]; rfl
  have hST : d.Status = "PENDING" := by rw [hd]; rfl
  have hAD : d.ShippingAddress = req.ShippingAddress := by rw [hd]; rfl
  rw [← hID] at hid haddr hev hcid hcev
  rw [← hTRK] at htrk hctrk
  have hget : PostgresRepository.GetDelivery false w1.db d.ID
      = .ok (some (scanDelivery (deliveryRow d, addressRow d))) := by
    unfold PostgresRepository.GetDelivery
    rw [hdb, created_rows_by_id w.db d _ hid haddr]
    rfl
  have htrack : PostgresRepository.TrackDelivery ⟨false, false⟩ w1.db d.TrackingNumber
      = .ok (some (scanDelivery (deliveryRow d, addressRow d), [creationEvent env d])) := by
    unfold PostgresRepository.TrackDelivery
    rw [hdb, created_rows_by_tracking w.db d _ htrk haddr]
    simp only [Bool.false_eq_true, if_false]
    have : (scanDelivery (deliveryRow d, addressRow d)).ID = d.ID := rfl
    rw [this, filter_append_fresh _ _ _ (by simpa using hev) (by simp [creationEvent])]
    rfl
  refine ⟨hST, ?_, ?_⟩
  · cases hfg : failCacheGet
    · cases hl : w1.cache.delivery.lookup d.ID with
      | some c =>
        refine ⟨c, get_fst_hit _ _ _ _ rfl hl, ?_⟩
        rw [hc] at hl
        unfold RedisCache.CacheDeliveryByTracking RedisCache.CacheDelivery at hl
        cases hp : cf.failCacheDelivery <;> cases hq : cf.failCacheByTracking <;>
          simp [hp, hq, List.lookup, hcid] at hl
        all_goals subst hl; exact ⟨rfl, hAD⟩
      | none =>
        refine ⟨scanDelivery (deliveryRow d, addressRow d), ?_, rfl, ?_⟩
        · rw [get_fst_miss _ _ _ (Or.inr hl)]
          simp only [hget]
          rfl
        · simpa [scanDelivery, addressRow] using hAD
    · refine ⟨scanDelivery (deliveryRow d, addressRow d), ?_, rfl, ?_⟩
      · rw [get_fst_miss _ _ _ (Or.inl rfl)]
        simp only [hget]
        rfl
      · simpa [scanDelivery, addressRow] using hAD
  · refine ⟨scanDelivery (deliveryRow d, addressRow d), creationEvent env d, ?_, rfl, rfl, rfl, hST,
      rfl, rfl⟩
    rw [track_fst_no_events, hstore, htrack]
    · rfl
    · intro c hl
      have hevs : w1.cache.delivery_events = w.cache.delivery_events := by
        rw [hc]
        unfold RedisCache.CacheDeliveryByTracking RedisCache.CacheDelivery
        cases cf.failCacheDelivery <;> cases cf.failCacheByTracking <;> rfl
      rw [hevs]
      rw [hc] at hl
      unfold RedisCache.CacheDeliveryByTracking RedisCache.CacheDelivery at hl
      cases hp : cf.failCacheDelivery <;> cases hq : cf.failCacheByTracking <;>
        simp [hp, hq, List.lookup, hctrk] at hl
      all_goals subst hl; exact hcev

/-- C6 at a concrete input: `Create(order_id = "ORD-1")` on the empty store with the
empty cache, then `Get` and `Track` with a working cache. -/
theorem create_then_get_and_track_witness :
    DeliveryService.CreateDelivery Schema.enforced sampleCreateEnv putsOK World.empty
        sampleCreateReq = (.ok sampleDelivery, afterCreate) ∧
      sampleDelivery.Status = "PENDING" ∧
      (∃ g, (DeliveryService.GetDelivery ⟨false, false, false⟩ afterCreate sampleDelivery.ID).1
          = .ok (some g) ∧
        g.ID = sampleDelivery.ID ∧ g.ShippingAddress = sampleCreateReq.ShippingAddress) ∧
      (∃ t ev, (DeliveryService.TrackDelivery trackOK afterCreate
          sampleDelivery.TrackingNumber).1 = .ok (some (t, [ev])) ∧
        t.ID = sampleDelivery.ID ∧ t.TrackingNumber = sampleDelivery.TrackingNumber ∧
        ev.DeliveryID = sampleDelivery.ID ∧ ev.Status = "PENDING" ∧ ev.Location = "Warehouse" ∧
        ev.Description = "Delivery created and pending processing") :=
  ⟨rfl,
    create_then_get_and_track Schema.enforced sampleCreateEnv putsOK World.empty afterCreate
      sampleCreateReq sampleDelivery false false trackOK rfl
      (fun _ h => nomatch h) (fun _ h => nomatch h) (fun _ h => nomatch h) (fun _ h => nomatch h)
      rfl rfl rfl rfl⟩

/-! ## Cache failures -/

/-- C7: cache failures never surface. For every store, cache content and pattern
of failing cache calls: the result of `Create` and of `Update` is decided by input
validation and the repository call alone (for `Update`, the repository's absent
result is the "delivery not found" outcome); when `Get` or `Track` returns an
error, the repository call returned that error. With a cache whose every call
fails, each of the four operations returns what it returns with an empty cache
whose every call succeeds. -/
theorem cache_failures_never_surface :
    (∀ (sc : Schema) (env : CreateEnv) (cf : PutFaults) (w : World) (req : CreateDeliveryRequest),
      (DeliveryService.CreateDelivery sc env cf w req).1
        = if req.OrderID = "" then .error .orderIDRequired
          else liftStore (PostgresRepository.CreateDelivery sc env w.db (newDelivery req)).1) ∧
    (∀ (sc : Schema) (env : UpdateEnv) (cf : PutFaults) (w : World) (req : UpdateDeliveryRequest),
      (DeliveryService.UpdateDelivery sc env cf w req).1
        = if req.ID = "" then .error .deliveryIDRequired
          else if req.Status = "" then .error .statusRequired
          else
            match (PostgresRepository.UpdateDelivery sc env w.db req).1 with
            | .error e => .error (.store e)
            | .ok none => .error .deliveryNotFound
            | .ok (some d) => .ok d) ∧
    (∀ (env : GetEnv) (w : World) (id : String) (e : ServiceError),
      (DeliveryService.GetDelivery env w id).1 = .error e →
        liftStore (PostgresRepository.GetDelivery env.failQuery w.db id) = .error e) ∧
    (∀ (env : TrackSvcEnv) (w : World) (trackingNumber : String) (e : ServiceError),
      (DeliveryService.TrackDelivery env w trackingNumber).1 = .error e →
        liftStore (PostgresRepository.TrackDelivery env.store w.db trackingNumber) = .error e) ∧
    (∀ (sc : Schema) (env : CreateEnv) (w : World) (req : CreateDeliveryRequest),
      (DeliveryService.CreateDelivery sc env ⟨true, true⟩ w req).1
        = (DeliveryService.CreateDelivery sc env ⟨false, false⟩ ⟨w.db, Cache.empty⟩ req).1) ∧
    (∀ (sc : Schema) (env : UpdateEnv) (w : World) (req : UpdateDeliveryRequest),
      (DeliveryService.UpdateDelivery sc env ⟨true, true⟩ w req).1
        = (DeliveryService.UpdateDelivery sc env ⟨false, false⟩ ⟨w.db, Cache.empty⟩ req).1) ∧
    (∀ (failQuery : Bool) (w : World) (id : String),
      (DeliveryService.GetDelivery ⟨true, failQuery, true⟩ w id).1
        = (DeliveryService.GetDelivery ⟨false, failQuery, false⟩ ⟨w.db, Cache.empty⟩ id).1) ∧
    (∀ (store : TrackEnv) (w : World) (trackingNumber : String),
      (DeliveryService.TrackDelivery ⟨true, true, store, true, true, true⟩ w trackingNumber).1
        = (DeliveryService.TrackDelivery ⟨false, false, store, false, false, false⟩
            ⟨w.db, Cache.empty⟩ trackingNumber).1) := by
  refine ⟨create_fst, update_fst, ?_, ?_, ?_, ?_, ?_, ?_⟩
  · intro env w id e h
    rcases get_fst_cases env w id with ⟨d, hd⟩ | hs
    · rw [hd] at h; cases h
    · rw [← hs]; exact h
  · intro env w trk e h
    rcases track_fst_cases env w trk with ⟨d, hd⟩ | hs
    · rw [hd] at h; cases h
    · rw [← hs]; exact h
  · intro sc env w req
    rw [create_fst, create_fst]
  · intro sc env w req
    rw [update_fst, update_fst]
  · intro fq w id
    rw [get_fst_miss ⟨true, fq, true⟩ w id (Or.inl rfl),
      get_fst_miss ⟨false, fq, false⟩ ⟨w.db, Cache.empty⟩ id (Or.inr rfl)]
  · intro st w trk
    rw [track_fst_miss ⟨true, true, st, true, true, true⟩ w trk (Or.inl rfl),
      track_fst_miss ⟨false, false, st, false, false, false⟩ ⟨w.db, Cache.empty⟩ trk (Or.inr rfl)]

/-! ## Get twice -/

/-- C8: two consecutive `Get(id)` calls return the same result, whatever the
store and the cache hold, whether the first call is served from the cache or from
the store, and whether or not each call's cache write succeeds. The cache reads
answer from the cache content and the store query behaves alike in both calls. -/
theorem get_twice_same_result (failQuery put1 put2 : Bool) (w : World) (id : String) :
    (DeliveryService.GetDelivery ⟨false, failQuery, put2⟩
        (DeliveryService.GetDelivery ⟨false, failQuery, put1⟩ w id).2 id).1
      = (DeliveryService.GetDelivery ⟨false, failQuery, put1⟩ w id).1 := by
  cases hc : w.cache.delivery.lookup id with
  | some c =>
    have h1 : DeliveryService.GetDelivery ⟨false, failQuery, put1⟩ w id = (.ok (some c), w) := by
      simp [DeliveryService.GetDelivery, RedisCache.GetCachedDelivery, hc]
    rw [h1]
    simp [DeliveryService.GetDelivery, RedisCache.GetCachedDelivery, hc]
  | none =>
    cases hs : PostgresRepository.GetDelivery failQuery w.db id with
    | error e =>
      have h1 : DeliveryService.GetDelivery ⟨false, failQuery, put1⟩ w id
          = (.error (.store e), w) := by
        simp [DeliveryService.GetDelivery, RedisCache.GetCachedDelivery, hc, hs]
      rw [h1]
      simp [DeliveryService.GetDelivery, RedisCache.GetCachedDelivery, hc, hs]
    | ok r =>
      cases r with
      | none =>
        have h1 : DeliveryService.GetDelivery ⟨false, failQuery, put1⟩ w id = (.ok none, w) := by
          simp [DeliveryService.GetDelivery, RedisCache.GetCachedDelivery, hc, hs]
        rw [h1]
        simp [DeliveryService.GetDelivery, RedisCache.GetCachedDelivery, hc, hs]
      | some d =>
        have hid : d.ID = id := getDelivery_some_id hs
        have h1 : DeliveryService.GetDelivery ⟨false, failQuery, put1⟩ w id
            = (.ok (some d),
                { w with cache := (RedisCache.CacheDelivery put1 w.cache d).2 }) := by
          simp [DeliveryService.GetDelivery, RedisCache.GetCachedDelivery, hc, hs]
        rw [h1]
        cases put1
        · simp [DeliveryService.GetDelivery, RedisCache.GetCachedDelivery,
            RedisCache.CacheDelivery, List.lookup, hid]
        · simp [DeliveryService.GetDelivery, RedisCache.GetCachedDelivery,
            RedisCache.CacheDelivery, hc, hs]

/-! ## List -/

/-- C9: `List` hands the repository the order id unchanged, the page `page` if
`1 ≤ page` and `1` otherwise, and the page size `pageSize` if it lies in
`[1, 100]` and `10` otherwise; these satisfy `1 ≤ page` and `1 ≤ size ≤ 100`. The
result is the repository's result, whatever the cache holds, and store and cache
are returned as they were. -/
theorem list_clamps_and_delegates (env : ListEnv) (db : DB) (c : Cache) (orderID : String)
    (page pageSize : Int) :
    (∀ (ρ : Type) (repoList : String → Int → Int → ρ),
      DeliveryService.ListDeliveriesWith repoList ⟨db, c⟩ orderID page pageSize
        = (repoList orderID (if 1 ≤ page then page else 1)
            (if 1 ≤ pageSize ∧ pageSize ≤ 100 then pageSize else 10), ⟨db, c⟩)) ∧
      DeliveryService.ListDeliveries env ⟨db, c⟩ orderID page pageSize
        = (PostgresRepository.ListDeliveries env db orderID (if 1 ≤ page then page else 1)
            (if 1 ≤ pageSize ∧ pageSize ≤ 100 then pageSize else 10), ⟨db, c⟩) ∧
      1 ≤ (if 1 ≤ page then page else 1) ∧
      1 ≤ (if 1 ≤ pageSize ∧ pageSize ≤ 100 then pageSize else 10) ∧
      (if 1 ≤ pageSize ∧ pageSize ≤ 100 then pageSize else 10) ≤ 100 := by
  have e1 : (if page < 1 then 1 else page) = (if 1 ≤ page then page else 1) := by
    split_ifs <;> omega
  have e2 : (if pageSize < 1 ∨ pageSize > 100 then 10 else pageSize)
      = (if 1 ≤ pageSize ∧ pageSize ≤ 100 then pageSize else 10) := by
    split_ifs <;> omega
  refine ⟨?_, ?_, ?_, ?_, ?_⟩
  · intro ρ repoList
    unfold DeliveryService.ListDeliveriesWith
    simp only [e1, e2]
  · unfold DeliveryService.ListDeliveries DeliveryService.ListDeliveriesWith
    simp only [e1, e2]
  · split_ifs <;> omega
  · split_ifs <;> omega
  · split_ifs <;> omega

/-! ## Pagination over equal creation timestamps -/

/-- C10 (counterexample): four runs, each over deliveries that share one creation
timestamp. (1) Three deliveries stored as `b`, `a`, `c`, page size 2, ties
returned in stored order by both queries: pages 1 and 2 list `b`, `a`, `c`, ordered
by identifier neither upwards nor downwards. (2) The same store, where the
database returns `b` last among the ties in the second query only: `b` is on both
pages and `c` on neither, although three deliveries are at most `2 * 2`. (3) The
store a failed `CreateDelivery` leaves, one delivery row with no address row:
page 1 of size 1 reports total 1 and lists no delivery. (4) Two delivery rows with
the one identifier `a`, page size 1: `a` is on both pages. -/
theorem list_two_pages_not_a_partition :
    (twoPageIDs tiedDB "" 2 storedTieOrder storedTieOrder = ["b", "a", "c"] ∧
      ¬ List.Sorted (fun x y : String => x ≤ y)
        (twoPageIDs tiedDB "" 2 storedTieOrder storedTieOrder) ∧
      ¬ List.Sorted (fun x y : String => x ≥ y)
        (twoPageIDs tiedDB "" 2 storedTieOrder storedTieOrder)) ∧
    twoPageIDs tiedDB "" 2 storedTieOrder bLastTieOrder = ["b", "a", "b"] ∧
    PostgresRepository.ListDeliveries ⟨false, false, storedTieOrder⟩ afterFailedCreate "" 1 1
      = .ok ([], 1) ∧
    twoPageIDs sameIdDB "" 1 storedTieOrder storedTieOrder = ["a", "a"] := by
  have h : twoPageIDs tiedDB "" 2 storedTieOrder storedTieOrder = ["b", "a", "c"] := by rfl
  refine ⟨⟨h, ?_, ?_⟩, by rfl, by rfl, by rfl⟩
  · rw [h]
    intro hs
    have hle : ("b" : String) ≤ "a" := List.rel_of_sorted_cons hs "a" (by simp)
    have hlt : ("a" : String) < "b" := by
      rw [String.lt_iff_toList_lt]; decide
    exact absurd hle (not_le.mpr hlt)
  · rw [h]
    intro hs
    have hle : ("a" : String) ≥ "c" := List.rel_of_sorted_cons hs.of_cons "c" (by simp)
    have hlt : ("a" : String) < "c" := by
      rw [String.lt_iff_toList_lt]; decide
    exact absurd hle (not_le.mpr hlt)

/-- C10 (amended): for matching deliveries that share one creation timestamp, in a
store where identifiers are distinct and every delivery row joins exactly one
address row, for a page size `1 ≤ N < 2 ^ 63`, and when the database returns the
tied rows in the same order `tieKey` in the page 1 query and in the page 2 query:
both pages report the number of matching deliveries as total; page 1 followed by
page 2 is the first `2 * N` rows of a rearrangement of the matching rows that
ascends in the database's tie order; no identifier is on both pages; and when at
most `2 * N` deliveries match, none is omitted. -/
theorem list_two_pages_same_tie_order (tieKey : DeliveryRow × AddressRow → Nat) (db : DB)
    (orderID : String) (N : Nat) (t : Time)
    (hN : 1 ≤ N) (hN64 : (N : Int) < 2 ^ 63)
    (hsame : ∀ d ∈ db.deliveries, orderFilter orderID d = true → d.created_at = t)
    (hjoin : (joinRows db).map Prod.fst = db.deliveries)
    (hnodup : (db.deliveries.map fun d => d.id).Nodup) :
    ∃ (p1 p2 : List Delivery) (rows : List (DeliveryRow × AddressRow)),
      PostgresRepository.ListDeliveries ⟨false, false, tieKey⟩ db orderID 1 N
        = .ok (p1, ((db.deliveries.filter (orderFilter orderID)).length : Nat)) ∧
      PostgresRepository.ListDeliveries ⟨false, false, tieKey⟩ db orderID 2 N
        = .ok (p2, ((db.deliveries.filter (orderFilter orderID)).length : Nat)) ∧
      rows.Perm ((joinRows db).filter fun r => orderFilter orderID r.1) ∧
      rows.Sorted (fun r s => tieKey r ≤ tieKey s) ∧
      p1 ++ p2 = (rows.take (2 * N)).map scanDelivery ∧
      ((p1 ++ p2).map fun d => d.ID).Nodup ∧
      (∀ x ∈ p1, ∀ y ∈ p2, x.ID ≠ y.ID) ∧
      ((db.deliveries.filter (orderFilter orderID)).length ≤ 2 * N →
        ∀ d ∈ db.deliveries, orderFilter orderID d = true →
          d.id ∈ (p1 ++ p2).map fun d => d.ID) := by
  have h1 := list_page tieKey db orderID 1 N (by norm_num) (by omega) (by simp) hjoin
  have h2 := list_page tieKey db orderID 2 N (by norm_num) (by omega) (by simpa using hN64) hjoin
  have hcat := orderedPage_two tieKey db orderID N
  have hperm := orderedRows_ids_perm tieKey db orderID hjoin
  have hids : (orderedPage tieKey db orderID 1 N ++ orderedPage tieKey db orderID 2 N).map
      (fun d => d.ID) = ((orderedRows tieKey db orderID).map fun r => r.1.id).take (2 * N) := by
    rw [hcat, List.map_map, List.map_take]
    rfl
  have hnd : ((orderedPage tieKey db orderID 1 N ++ orderedPage tieKey db orderID 2 N).map
      fun d => d.ID).Nodup := by
    rw [hids]
    exact (hperm.nodup_iff.mpr (hnodup.sublist ((List.filter_sublist _).map _))).sublist
      (List.take_sublist _ _)
  have hsorted : (orderedRows tieKey db orderID).Sorted fun r s => tieKey r ≤ tieKey s := by
    apply orderedRows_sorted tieKey db orderID t
    intro r hr
    have hr2 := List.mem_filter.mp hr
    apply hsame r.1 _ hr2.2
    rw [← hjoin]
    exact List.mem_map_of_mem _ hr2.1
  refine ⟨_, _, orderedRows tieKey db orderID, h1, h2, orderedRows_perm tieKey db orderID,
    hsorted, hcat, hnd, ?_, ?_⟩
  · intro x hx y hy hxy
    rw [List.map_append] at hnd
    exact (List.nodup_append.mp hnd).2.2 (List.mem_map_of_mem _ hx)
      (hxy ▸ List.mem_map_of_mem (fun d : Delivery => d.ID) hy)
  · intro hlen d hd hf
    have hlen2 : ((orderedRows tieKey db orderID).map fun r => r.1.id).length ≤ 2 * N := by
      rw [hperm.length_eq]
      simpa using hlen
    rw [hids, List.take_of_length_le hlen2]
    exact hperm.mem_iff.mpr (List.mem_map_of_mem _ (List.mem_filter.mpr ⟨hd, hf⟩))

/-- C10 (amended) at a concrete input: the three tied deliveries, page size 2, the
database returning `b` last among the ties in both queries. -/
theorem list_two_pages_same_tie_order_witness :
    (∀ d ∈ tiedDB.deliveries, orderFilter "" d = true → d.created_at = 50) ∧
      (joinRows tiedDB).map Prod.fst = tiedDB.deliveries ∧
      (tiedDB.deliveries.map fun d => d.id).Nodup ∧
      twoPageIDs tiedDB "" 2 bLastTieOrder bLastTieOrder = ["a", "c", "b"] ∧
      ∃ (p1 p2 : List Delivery) (rows : List (DeliveryRow × AddressRow)),
        PostgresRepository.ListDeliveries ⟨false, false, bLastTieOrder⟩ tiedDB "" 1 (2 : Nat)
          = .ok (p1, ((tiedDB.deliveries.filter (orderFilter "")).length : Nat)) ∧
        PostgresRepository.ListDeliveries ⟨false, false, bLastTieOrder⟩ tiedDB "" 2 (2 : Nat)
          = .ok (p2, ((tiedDB.deliveries.filter (orderFilter "")).length : Nat)) ∧
        rows.Perm ((joinRows tiedDB).filter fun r => orderFilter "" r.1) ∧
        rows.Sorted (fun r s => bLastTieOrder r ≤ bLastTieOrder s) ∧
        p1 ++ p2 = (rows.take (2 * 2)).map scanDelivery ∧
        ((p1 ++ p2).map fun d => d.ID).Nodup ∧
        (∀ x ∈ p1, ∀ y ∈ p2, x.ID ≠ y.ID) ∧
        ((tiedDB.deliveries.filter (orderFilter "")).length ≤ 2 * 2 →
          ∀ d ∈ tiedDB.deliveries, orderFilter "" d = true →
            d.id ∈ (p1 ++ p2).map fun d => d.ID) :=
  ⟨by decide, rfl, by decide, rfl,
    list_two_pages_same_tie_order bLastTieOrder tiedDB "" 2 50 (by decide) (by norm_num)
      (by decide) rfl (by decide)⟩

/-! ## Validation -/

/-- C11: validation precedes every store and cache call. `Create` with an empty
order id, and `Update` with an empty id or an empty status, return the validation
error and leave store and cache as they were, whatever the schema, the
environment and the cache failures. Conversely, for a non-empty id and any
non-empty status, `Update` returns what the repository call gives and leaves the
store the repository call leaves; and on a delivery the store holds, with no
statement failing, it succeeds with the requested status, whatever that string
is. -/
theorem validation_precedes_store_and_cache (sc : Schema) (cf : PutFaults) (w : World) :
    (∀ (env : CreateEnv) (req : CreateDeliveryRequest), req.OrderID = "" →
      DeliveryService.CreateDelivery sc env cf w req = (.error .orderIDRequired, w)) ∧
    (∀ (env : UpdateEnv) (req : UpdateDeliveryRequest), req.ID = "" →
      DeliveryService.UpdateDelivery sc env cf w req = (.error .deliveryIDRequired, w)) ∧
    (∀ (env : UpdateEnv) (req : UpdateDeliveryRequest), req.ID ≠ "" → req.Status = "" →
      DeliveryService.UpdateDelivery sc env cf w req = (.error .statusRequired, w)) ∧
    (∀ (env : UpdateEnv) (req : UpdateDeliveryRequest), req.ID ≠ "" → req.Status ≠ "" →
      (DeliveryService.UpdateDelivery sc env cf w req).1
          = (match (PostgresRepository.UpdateDelivery sc env w.db req).1 with
            | .error e => .error (.store e)
            | .ok none => .error .deliveryNotFound
            | .ok (some d) => .ok d) ∧
        (DeliveryService.UpdateDelivery sc env cf w req).2.db
          = (PostgresRepository.UpdateDelivery sc env w.db req).2) ∧
    (∀ (now : Time) (uuid : String) (req : UpdateDeliveryRequest) (before : Delivery),
      req.ID ≠ "" → req.Status ≠ "" →
      PostgresRepository.GetDelivery false w.db req.ID = .ok (some before) →
      ∃ updated,
        (DeliveryService.UpdateDelivery sc ⟨now, uuid, false, false, false, false, false, false⟩
            cf w req).1 = .ok updated ∧
          updated.Status = req.Status) := by
  refine ⟨?_, ?_, ?_, ?_, ?_⟩
  · intro env req h
    simp [DeliveryService.CreateDelivery, h]
  · intro env req h
    simp [DeliveryService.UpdateDelivery, h]
  · intro env req hid h
    simp [DeliveryService.UpdateDelivery, hid, h]
  · intro env req hid hst
    constructor
    · rw [update_fst, if_neg hid, if_neg hst]
    · unfold DeliveryService.UpdateDelivery
      rw [if_neg hid, if_neg hst]
      rcases PostgresRepository.UpdateDelivery sc env w.db req with ⟨_ | _ | _, _⟩ <;> rfl
  · intro now uuid req before hid hst hbefore
    obtain ⟨updated, hrepo, hstatus, _⟩ := repo_update_existing sc now uuid w.db req before hbefore
    refine ⟨updated, ?_, hstatus⟩
    rw [update_fst, if_neg hid, if_neg hst, hrepo]

end DeliveryModel
